import Mathlib

/-!
# ngx_http_multicert_module: certificate slots and the ClientHello selector

A shallow embedding of `src/ngx_http_multicert_module.c`.

* Pointers that the code tests against `NULL` are `Option`s.
* The `offsetof(srv_conf_t, ssl_*)` values of `kCertSigNIDs` are the `Slot`
  they address; the sentinel's offset `0` addresses no slot.
* The library calls the module makes (BoringSSL `CBS_*`, `sk_SSL_CIPHER_*`,
  `SSL_early_callback_ctx_extension_get`) are modelled by their documented
  behaviour; the library's cipher table `SSL_get_cipher_by_value` is a
  parameter.
* `select_certificate_cb` returns its `int` together with the slot whose
  context it handed to `SSL_set_SSL_CTX` (if any).
* `merge_srv_conf` and `set_conf_ssl_for_ctx` thread the configuration they
  write through every return; the outcomes of the host's and the library's
  calls inside `merge_srv_conf` are a parameter, `qsort` is an insertion
  sort, and the binary search of a sorted stack is a halving search.
-/

set_option autoImplicit false

namespace Multicert

/-! ## Data model -/

/-- A byte of the ClientHello (`uint8_t`). -/
abbrev uint8_t := Fin 256

/-- Object identifier numbers of the certificate signature algorithms
(`openssl/nid.h`). -/
def NID_undef : Int := 0
def NID_md5WithRSAEncryption : Int := 8
def NID_sha1WithRSAEncryption : Int := 65
def NID_sha256WithRSAEncryption : Int := 668
def NID_sha384WithRSAEncryption : Int := 669
def NID_sha512WithRSAEncryption : Int := 670
def NID_ecdsa_with_SHA256 : Int := 794
def NID_ecdsa_with_SHA384 : Int := 795
def NID_ecdsa_with_SHA512 : Int := 796

/-- TLS constants (`openssl/tls1.h`). -/
def TLSEXT_TYPE_server_name : Nat := 0
def TLSEXT_TYPE_signature_algorithms : Nat := 13
def TLSEXT_hash_sha256 : Nat := 4
def TLSEXT_hash_sha384 : Nat := 5
def TLSEXT_hash_sha512 : Nat := 6
def TLSEXT_signature_rsa : Nat := 1
def TLSEXT_signature_ecdsa : Nat := 3

/-- The certificate of a context, as far as the module looks at it: the NID
of its signature algorithm (`X509_get_signature_nid`). -/
structure X509 where
  signature_nid : Int
deriving DecidableEq, Repr

/-- A TLS server context: `id` is the identity of the `SSL_CTX` object,
`certificate` what `SSL_CTX_get0_certificate` returns (`none` for `NULL`). -/
structure SSL_CTX where
  id : Nat
  certificate : Option X509
deriving DecidableEq, Repr

/-- The host's `ngx_ssl_t`; the module only tests and copies `ctx`. -/
structure ngx_ssl_t where
  ctx : Option SSL_CTX
deriving DecidableEq, Repr

/-- A cipher suite of the TLS library: its identifier and whether its
authentication is ECDSA (what `SSL_CIPHER_is_ECDSA` reports). -/
structure SSL_CIPHER where
  id : Nat
  is_ECDSA : Bool
deriving DecidableEq, Repr

/-- The seven `ngx_ssl_t` members of `srv_conf_t`. -/
inductive Slot where
  | ssl_rsa
  | ssl_rsa_sha256
  | ssl_rsa_sha384
  | ssl_rsa_sha512
  | ssl_ecdsa_sha256
  | ssl_ecdsa_sha384
  | ssl_ecdsa_sha512
deriving DecidableEq, Repr

/-- The spec's names of the slots. -/
abbrev Slot.RsaLegacy : Slot := Slot.ssl_rsa
abbrev Slot.RsaSha256 : Slot := Slot.ssl_rsa_sha256
abbrev Slot.RsaSha384 : Slot := Slot.ssl_rsa_sha384
abbrev Slot.RsaSha512 : Slot := Slot.ssl_rsa_sha512
abbrev Slot.EcdsaSha256 : Slot := Slot.ssl_ecdsa_sha256
abbrev Slot.EcdsaSha384 : Slot := Slot.ssl_ecdsa_sha384
abbrev Slot.EcdsaSha512 : Slot := Slot.ssl_ecdsa_sha512

/-- The module's server configuration (the spec's Bundle). The two
directive arrays are `none` when unset; a `NULL` `ecdsa_ciphers` stack
behaves as the empty one in every call the module makes. -/
structure srv_conf_t where
  certificate : Option (List String)
  certificate_key : Option (List String)
  ssl_rsa : ngx_ssl_t
  ssl_rsa_sha256 : ngx_ssl_t
  ssl_rsa_sha384 : ngx_ssl_t
  ssl_rsa_sha512 : ngx_ssl_t
  ssl_ecdsa_sha256 : ngx_ssl_t
  ssl_ecdsa_sha384 : ngx_ssl_t
  ssl_ecdsa_sha512 : ngx_ssl_t
  ecdsa_ciphers : List SSL_CIPHER
deriving DecidableEq, Repr

/-- The member `(ngx_ssl_t *)((char *)conf + offset)` for the offset of a
slot. -/
def srv_conf_t.slot (conf : srv_conf_t) : Slot → ngx_ssl_t
  | .ssl_rsa => conf.ssl_rsa
  | .ssl_rsa_sha256 => conf.ssl_rsa_sha256
  | .ssl_rsa_sha384 => conf.ssl_rsa_sha384
  | .ssl_rsa_sha512 => conf.ssl_rsa_sha512
  | .ssl_ecdsa_sha256 => conf.ssl_ecdsa_sha256
  | .ssl_ecdsa_sha384 => conf.ssl_ecdsa_sha384
  | .ssl_ecdsa_sha512 => conf.ssl_ecdsa_sha512

/-- The store `*conf_ssl = *ssl` through the pointer of a slot. -/
def srv_conf_t.setSlot (conf : srv_conf_t) (s : Slot) (ssl : ngx_ssl_t) : srv_conf_t :=
  match s with
  | .ssl_rsa => { conf with ssl_rsa := ssl }
  | .ssl_rsa_sha256 => { conf with ssl_rsa_sha256 := ssl }
  | .ssl_rsa_sha384 => { conf with ssl_rsa_sha384 := ssl }
  | .ssl_rsa_sha512 => { conf with ssl_rsa_sha512 := ssl }
  | .ssl_ecdsa_sha256 => { conf with ssl_ecdsa_sha256 := ssl }
  | .ssl_ecdsa_sha384 => { conf with ssl_ecdsa_sha384 := ssl }
  | .ssl_ecdsa_sha512 => { conf with ssl_ecdsa_sha512 := ssl }

/-- A slot is populated when its `ctx` is not `NULL`. -/
def srv_conf_t.populated (conf : srv_conf_t) (s : Slot) : Bool :=
  (conf.slot s).ctx.isSome

/-- An entry of `kCertSigNIDs`. -/
structure ssl_cert_sig_nid_st where
  nid : Int
  offset : Option Slot
deriving DecidableEq, Repr

/-- The table `kCertSigNIDs`, its `{ NID_undef, 0 }` sentinel included. -/
def kCertSigNIDs : List ssl_cert_sig_nid_st :=
  [ { nid := NID_md5WithRSAEncryption, offset := some .ssl_rsa },
    { nid := NID_sha1WithRSAEncryption, offset := some .ssl_rsa },
    { nid := NID_sha256WithRSAEncryption, offset := some .ssl_rsa_sha256 },
    { nid := NID_sha384WithRSAEncryption, offset := some .ssl_rsa_sha384 },
    { nid := NID_sha512WithRSAEncryption, offset := some .ssl_rsa_sha512 },
    { nid := NID_ecdsa_with_SHA256, offset := some .ssl_ecdsa_sha256 },
    { nid := NID_ecdsa_with_SHA384, offset := some .ssl_ecdsa_sha384 },
    { nid := NID_ecdsa_with_SHA512, offset := some .ssl_ecdsa_sha512 },
    { nid := NID_undef, offset := none } ]

/-! ## set_conf_ssl_for_ctx -/

/-- The `for` loop of `set_conf_ssl_for_ctx` over the entries of the table
from index `i` on: it ends at the sentinel (then the function logs "invalid
certificate signature algorithm" and returns `NULL`), skips entries of
another NID, and at the first entry of this NID either fails on a populated
slot ("certificate type is duplicate") or stores `*ssl` there and returns
the slot's address. `none` is `NULL`. -/
def set_conf_ssl_for_ctx_loop (conf : srv_conf_t) (ssl : ngx_ssl_t) (nid : Int) :
    List ssl_cert_sig_nid_st → Option (Slot × srv_conf_t)
  | [] => none
  | e :: rest =>
    if e.nid = NID_undef then none
    else if nid ≠ e.nid then set_conf_ssl_for_ctx_loop conf ssl nid rest
    else
      match e.offset with
      | none => none
      | some s =>
        if (conf.slot s).ctx.isSome then none
        else some (s, conf.setSlot s ssl)

/-- The function `set_conf_ssl_for_ctx(cf, conf, ssl)`: the returned pointer
(the slot written, `none` for `NULL`) and the configuration after the call.
Both call sites pass an `ssl` whose `ctx` is set; a `NULL` one has no
certificate to read. -/
def set_conf_ssl_for_ctx (conf : srv_conf_t) (ssl : ngx_ssl_t) : Option (Slot × srv_conf_t) :=
  match ssl.ctx with
  | none => none
  | some c =>
    match c.certificate with
    | none => none
    | some cert => set_conf_ssl_for_ctx_loop conf ssl cert.signature_nid kCertSigNIDs

/-! ## The ClientHello and the byte cursor -/

/-- A `CBS`: the bytes not yet consumed. -/
abbrev CBS := List uint8_t

/-- The call `CBS_len`. -/
def CBS_len (cbs : CBS) : Nat := cbs.length

/-- The call `CBS_get_u16`: the next two bytes as a big-endian number. -/
def CBS_get_u16 : CBS → Option (Nat × CBS)
  | hi :: lo :: rest => some ((hi.val <<< 8) ||| lo.val, rest)
  | _ => none

/-- The call `CBS_get_bytes`: the next `len` bytes as a cursor of their own
and the advanced cursor, `none` when fewer than `len` bytes are left. -/
def CBS_get_bytes (cbs : CBS) (len : Nat) : Option (CBS × CBS) :=
  if cbs.length < len then none else some (cbs.take len, cbs.drop len)

/-- The call `CBS_get_u16_length_prefixed`: a 16-bit length and that many
bytes. -/
def CBS_get_u16_length_prefixed (cbs : CBS) : Option (CBS × CBS) :=
  match CBS_get_u16 cbs with
  | none => none
  | some (len, rest) => CBS_get_bytes rest len

/-- The view `struct ssl_early_callback_ctx` of a ClientHello: the bytes of
its cipher-suite list and its extensions, each with its 16-bit type and its
body. -/
structure ssl_early_callback_ctx where
  cipher_suites : List uint8_t
  extensions : List (Nat × List uint8_t)
deriving DecidableEq, Repr

/-- The call `SSL_early_callback_ctx_extension_get`: the body of the first
extension of the given type, `none` when there is none (the call returns
0). -/
def SSL_early_callback_ctx_extension_get (ctx : ssl_early_callback_ctx)
    (extension_type : Nat) : Option (List uint8_t) :=
  (ctx.extensions.find? (fun e => e.1 == extension_type)).map (fun e => e.2)

/-! ## Cipher stacks -/

/-- The comparator `ssl_cipher_ptr_id_cmp`. -/
def ssl_cipher_ptr_id_cmp (a b : SSL_CIPHER) : Int :=
  if a.id > b.id then 1
  else if a.id < b.id then -1
  else 0

/-- The call `sk_SSL_CIPHER_num`. -/
def sk_SSL_CIPHER_num (sk : List SSL_CIPHER) : Nat := sk.length

/-- The call `sk_SSL_CIPHER_find(sk, NULL, p)` on a stack created with
`ssl_cipher_ptr_id_cmp`: whether some element compares equal to `p`. -/
def sk_SSL_CIPHER_find (sk : List SSL_CIPHER) (p : SSL_CIPHER) : Bool :=
  sk.any (fun c => ssl_cipher_ptr_id_cmp c p == 0)

/-! ## select_certificate_cb -/

/-- The six `has_*` locals the signature-algorithms loop sets. -/
structure sig_flags where
  has_sha256_rsa : Bool
  has_sha256_ecdsa : Bool
  has_sha384_rsa : Bool
  has_sha384_ecdsa : Bool
  has_sha512_rsa : Bool
  has_sha512_ecdsa : Bool
deriving DecidableEq, Repr

/-- The initial value of the six locals (all `0`). -/
def sig_flags.init : sig_flags :=
  { has_sha256_rsa := false, has_sha256_ecdsa := false,
    has_sha384_rsa := false, has_sha384_ecdsa := false,
    has_sha512_rsa := false, has_sha512_ecdsa := false }

/-- The condition of the `break` of the signature-algorithms loop. -/
def sig_flags.all (f : sig_flags) : Bool :=
  f.has_sha256_rsa && f.has_sha384_rsa && f.has_sha512_rsa
    && f.has_sha256_ecdsa && f.has_sha384_ecdsa && f.has_sha512_ecdsa

/-- The `switch (((uint16_t)sign << 8) | hash)`: the flags after a tracked
pair, `none` in the `default` case (which `continue`s). -/
def sig_switch (hash sign : Nat) (f : sig_flags) : Option sig_flags :=
  let v := (sign <<< 8) ||| hash
  if v = ((TLSEXT_signature_rsa <<< 8) ||| TLSEXT_hash_sha256) then
    some { f with has_sha256_rsa := true }
  else if v = ((TLSEXT_signature_rsa <<< 8) ||| TLSEXT_hash_sha384) then
    some { f with has_sha384_rsa := true }
  else if v = ((TLSEXT_signature_rsa <<< 8) ||| TLSEXT_hash_sha512) then
    some { f with has_sha512_rsa := true }
  else if v = ((TLSEXT_signature_ecdsa <<< 8) ||| TLSEXT_hash_sha256) then
    some { f with has_sha256_ecdsa := true }
  else if v = ((TLSEXT_signature_ecdsa <<< 8) ||| TLSEXT_hash_sha384) then
    some { f with has_sha384_ecdsa := true }
  else if v = ((TLSEXT_signature_ecdsa <<< 8) ||| TLSEXT_hash_sha512) then
    some { f with has_sha512_ecdsa := true }
  else none

/-- The loop `while (CBS_len(&supported_sig_algs) != 0)`: each round takes
`hash` and `sign` with two `CBS_get_u8` (`none`, the `return -1`, when the
second finds no byte), runs the switch, and `break`s once all six flags are
set. -/
def sig_algs_loop : CBS → sig_flags → Option sig_flags
  | [], f => some f
  | [_], _ => none
  | hash :: sign :: rest, f =>
    match sig_switch hash.val sign.val f with
    | none => sig_algs_loop rest f
    | some g => if g.all then some g else sig_algs_loop rest g

/-- The loop `while (CBS_len(&cipher_suites) != 0)`: `none` is the
`return -1` of a failed `CBS_get_u16`; otherwise the value of `has_ecdsa`
and the cursor when the loop is left. -/
def cipher_suites_loop (SSL_get_cipher_by_value : Nat → Option SSL_CIPHER)
    (ecdsa_ciphers : List SSL_CIPHER) : CBS → Option (Bool × CBS)
  | [] => some (false, [])
  | [_] => none
  | hi :: lo :: rest =>
    match SSL_get_cipher_by_value ((hi.val <<< 8) ||| lo.val) with
    | none => cipher_suites_loop SSL_get_cipher_by_value ecdsa_ciphers rest
    | some cipher =>
      if cipher.is_ECDSA && sk_SSL_CIPHER_find ecdsa_ciphers cipher then some (true, rest)
      else cipher_suites_loop SSL_get_cipher_by_value ecdsa_ciphers rest

/-- What `select_certificate_cb` does: the `int` it returns and the slot
whose `ctx` it passed to `SSL_set_SSL_CTX`, `none` when it made no such
call. -/
structure cb_result where
  ret : Int
  installed : Option Slot
deriving DecidableEq, Repr

/-- The outcome "abort the handshake": `return -1`, nothing installed. -/
def cb_result.parseError : cb_result := { ret := -1, installed := none }

/-- The outcome "use the context already active": `return 1`, nothing
installed. -/
def cb_result.useDefault : cb_result := { ret := 1, installed := none }

/-- The outcome "serve slot `s`": `return 1` after
`SSL_set_SSL_CTX(ctx->ssl, conf->s.ctx)`. -/
def cb_result.selected (s : Slot) : cb_result := { ret := 1, installed := some s }

/-- The local `can_ecdsa`. -/
def can_ecdsa (conf : srv_conf_t) : Bool :=
  (conf.ssl_ecdsa_sha256.ctx.isSome || conf.ssl_ecdsa_sha384.ctx.isSome
      || conf.ssl_ecdsa_sha512.ctx.isSome)
    && sk_SSL_CIPHER_num conf.ecdsa_ciphers != 0

/-- The code from the label `continue_check` to the end. -/
def continue_check (conf : srv_conf_t) (ctx : ssl_early_callback_ctx) : cb_result :=
  if conf.ssl_rsa_sha256.ctx.isSome
      && (SSL_early_callback_ctx_extension_get ctx TLSEXT_TYPE_server_name).isSome then
    cb_result.selected .ssl_rsa_sha256
  else if conf.ssl_rsa.ctx.isSome then
    cb_result.selected .ssl_rsa
  else
    cb_result.useDefault

/-- The `if` / `else if` chain that installs a context, `none` for its final
`goto continue_check`. -/
def select_chain (conf : srv_conf_t) (has_ecdsa : Bool) (f : sig_flags) : Option Slot :=
  if conf.ssl_ecdsa_sha512.ctx.isSome && has_ecdsa && f.has_sha512_ecdsa then
    some .ssl_ecdsa_sha512
  else if conf.ssl_ecdsa_sha384.ctx.isSome && has_ecdsa && f.has_sha384_ecdsa then
    some .ssl_ecdsa_sha384
  else if conf.ssl_ecdsa_sha256.ctx.isSome && has_ecdsa && f.has_sha256_ecdsa then
    some .ssl_ecdsa_sha256
  else if conf.ssl_rsa_sha512.ctx.isSome && f.has_sha512_rsa then
    some .ssl_rsa_sha512
  else if conf.ssl_rsa_sha384.ctx.isSome && f.has_sha384_rsa then
    some .ssl_rsa_sha384
  else if conf.ssl_rsa_sha256.ctx.isSome && f.has_sha256_rsa then
    some .ssl_rsa_sha256
  else none

/-- The cipher-suite block of `select_certificate_cb`: `has_ecdsa` stays `0`
unless `can_ecdsa` and an ECDSA flag is set, in which case the loop over
`ctx->cipher_suites` runs. `none` is its `return -1`. -/
def cipher_suites_block (SSL_get_cipher_by_value : Nat → Option SSL_CIPHER)
    (conf : srv_conf_t) (ctx : ssl_early_callback_ctx) (f : sig_flags) : Option Bool :=
  if can_ecdsa conf && (f.has_sha256_ecdsa || f.has_sha384_ecdsa || f.has_sha512_ecdsa) then
    (cipher_suites_loop SSL_get_cipher_by_value conf.ecdsa_ciphers ctx.cipher_suites).map
      (fun r => r.1)
  else some false

/-- The function `select_certificate_cb`, for the configuration `conf`
attached to the connection's context. -/
def select_certificate_cb (SSL_get_cipher_by_value : Nat → Option SSL_CIPHER)
    (conf : srv_conf_t) (ctx : ssl_early_callback_ctx) : cb_result :=
  if can_ecdsa conf || conf.ssl_rsa_sha256.ctx.isSome || conf.ssl_rsa_sha384.ctx.isSome
      || conf.ssl_rsa_sha512.ctx.isSome then
    match SSL_early_callback_ctx_extension_get ctx TLSEXT_TYPE_signature_algorithms with
    | none => continue_check conf ctx
    | some sig_algs =>
      match CBS_get_u16_length_prefixed sig_algs with
      | none => cb_result.parseError
      | some (supported_sig_algs, sig_algs_rest) =>
        if CBS_len sig_algs_rest != 0 || CBS_len supported_sig_algs == 0 then
          cb_result.parseError
        else if CBS_len supported_sig_algs % 2 != 0 then
          cb_result.parseError
        else
          match sig_algs_loop supported_sig_algs sig_flags.init with
          | none => cb_result.parseError
          | some f =>
            match cipher_suites_block SSL_get_cipher_by_value conf ctx f with
            | none => cb_result.parseError
            | some has_ecdsa =>
              match select_chain conf has_ecdsa f with
              | some s => cb_result.selected s
              | none => continue_check conf ctx
  else
    continue_check conf ctx

/-! ## The specification's vocabulary -/

/-- The (hash, signature) pairs of a signature-algorithms list, one per two
bytes. -/
def sig_pairs : List uint8_t → List (Nat × Nat)
  | hash :: sign :: rest => (hash.val, sign.val) :: sig_pairs rest
  | _ => []

/-- Whether the pair (hash, signature) occurs in the list. -/
def hasPair (list : List uint8_t) (hash sign : Nat) : Bool :=
  decide ((hash, sign) ∈ sig_pairs list)

/-- The spec's SignatureAlgorithmSet of a list: each flag tells whether its
pair occurs anywhere in the list (a full scan). -/
def SignatureAlgorithmSet (list : List uint8_t) : sig_flags :=
  { has_sha256_rsa := hasPair list TLSEXT_hash_sha256 TLSEXT_signature_rsa,
    has_sha256_ecdsa := hasPair list TLSEXT_hash_sha256 TLSEXT_signature_ecdsa,
    has_sha384_rsa := hasPair list TLSEXT_hash_sha384 TLSEXT_signature_rsa,
    has_sha384_ecdsa := hasPair list TLSEXT_hash_sha384 TLSEXT_signature_ecdsa,
    has_sha512_rsa := hasPair list TLSEXT_hash_sha512 TLSEXT_signature_rsa,
    has_sha512_ecdsa := hasPair list TLSEXT_hash_sha512 TLSEXT_signature_ecdsa }

/-- The spec's well-formed signature-algorithms extension `ext` carrying
`list`: a 2-byte big-endian length, then exactly that many bytes, the list
neither empty nor of odd length. -/
def SigAlgsWellFormed (ext list : List uint8_t) : Prop :=
  ∃ hi lo : uint8_t, ext = hi :: lo :: list ∧ hi.val * 256 + lo.val = list.length
    ∧ list ≠ [] ∧ list.length % 2 = 0

/-- The spec's malformed signature-algorithms extension: the declared length
differs from the number of bytes that follow it (too few, as when it points
past the end, or too many), or the list is empty, or its length is odd. An
extension too short to hold the length itself is malformed as well. -/
def SigAlgsMalformed : List uint8_t → Prop
  | hi :: lo :: body =>
    hi.val * 256 + lo.val ≠ body.length ∨ body.length = 0 ∨ body.length % 2 = 1
  | _ => True

/-- The 2-byte suites the client offers: the complete pairs of bytes of its
cipher-suite list, in order. -/
def offered_suites : List uint8_t → List Nat
  | hi :: lo :: rest => (hi.val * 256 + lo.val) :: offered_suites rest
  | _ => []

/-- Whether the suite with this 2-byte value is known to the library,
ECDSA-keyed and a member of the ECDSA cipher set. -/
def suiteCompatible (SSL_get_cipher_by_value : Nat → Option SSL_CIPHER)
    (ecdsa_ciphers : List SSL_CIPHER) (v : Nat) : Bool :=
  match SSL_get_cipher_by_value v with
  | none => false
  | some cipher => cipher.is_ECDSA && sk_SSL_CIPHER_find ecdsa_ciphers cipher

/-- The spec's CipherCompatibility: the client offered at least one suite
that is ECDSA-keyed and in the bundle's ECDSA cipher set. -/
def hasEcdsaCipher (SSL_get_cipher_by_value : Nat → Option SSL_CIPHER)
    (conf : srv_conf_t) (ctx : ssl_early_callback_ctx) : Bool :=
  (offered_suites ctx.cipher_suites).any
    (suiteCompatible SSL_get_cipher_by_value conf.ecdsa_ciphers)

/-- The spec's `canEcdsa`: some ECDSA slot is populated and the ECDSA cipher
set is not empty. -/
def canEcdsa (conf : srv_conf_t) : Prop :=
  (conf.populated .EcdsaSha256 = true ∨ conf.populated .EcdsaSha384 = true
      ∨ conf.populated .EcdsaSha512 = true)
    ∧ conf.ecdsa_ciphers ≠ []

/-- The spec's condition of step 2 on the bundle: `canEcdsa`, or one of
RsaSha256, RsaSha384, RsaSha512 populated. -/
def sigAlgsConsulted (conf : srv_conf_t) : Prop :=
  canEcdsa conf ∨ conf.populated .RsaSha256 = true ∨ conf.populated .RsaSha384 = true
    ∨ conf.populated .RsaSha512 = true

/-- The spec's priority rules of step 2c, highest first: the slot and the
condition under which it is chosen. -/
def priorityRules (conf : srv_conf_t) (hasCipher : Bool) (f : sig_flags) :
    List (Slot × Bool) :=
  [ (.EcdsaSha512, conf.populated .EcdsaSha512 && hasCipher && f.has_sha512_ecdsa),
    (.EcdsaSha384, conf.populated .EcdsaSha384 && hasCipher && f.has_sha384_ecdsa),
    (.EcdsaSha256, conf.populated .EcdsaSha256 && hasCipher && f.has_sha256_ecdsa),
    (.RsaSha512, conf.populated .RsaSha512 && f.has_sha512_rsa),
    (.RsaSha384, conf.populated .RsaSha384 && f.has_sha384_rsa),
    (.RsaSha256, conf.populated .RsaSha256 && f.has_sha256_rsa) ]

/-- The slot of the first satisfied priority rule, `none` when no rule is
satisfied. -/
def firstSatisfiedRule (conf : srv_conf_t) (hasCipher : Bool) (f : sig_flags) :
    Option Slot :=
  ((priorityRules conf hasCipher f).find? (fun r => r.2)).map (fun r => r.1)

/-- The spec's Slot Table (4.1): the eight recognised signature algorithms
and the slot of each. -/
def SlotTable : List (Int × Slot) :=
  [ (NID_md5WithRSAEncryption, .RsaLegacy),
    (NID_sha1WithRSAEncryption, .RsaLegacy),
    (NID_sha256WithRSAEncryption, .RsaSha256),
    (NID_sha384WithRSAEncryption, .RsaSha384),
    (NID_sha512WithRSAEncryption, .RsaSha512),
    (NID_ecdsa_with_SHA256, .EcdsaSha256),
    (NID_ecdsa_with_SHA384, .EcdsaSha384),
    (NID_ecdsa_with_SHA512, .EcdsaSha512) ]

/-- The spec's condition under which the cipher-suite compatibility scan is
evaluated on a parsed list: `canEcdsa` and at least one ECDSA flag set. -/
def scanEvaluated (conf : srv_conf_t) (list : List uint8_t) : Prop :=
  canEcdsa conf ∧
    (hasPair list TLSEXT_hash_sha256 TLSEXT_signature_ecdsa = true
      ∨ hasPair list TLSEXT_hash_sha384 TLSEXT_signature_ecdsa = true
      ∨ hasPair list TLSEXT_hash_sha512 TLSEXT_signature_ecdsa = true)

/-- Whether the client sent a server-name extension. -/
def hasServerName (ctx : ssl_early_callback_ctx) : Bool :=
  ctx.extensions.any (fun e => e.1 == TLSEXT_TYPE_server_name)

/-- The spec's fallback (step 3): RsaSha256 if populated and a server-name
extension was sent, else RsaLegacy if populated, else UseDefault. -/
def fallbackOutcome (conf : srv_conf_t) (ctx : ssl_early_callback_ctx) : cb_result :=
  if conf.populated .RsaSha256 = true ∧ hasServerName ctx = true then
    cb_result.selected .RsaSha256
  else if conf.populated .RsaLegacy = true then
    cb_result.selected .RsaLegacy
  else
    cb_result.useDefault

/-- Fieldwise disjunction of two flag records. -/
def sig_flags.join (f g : sig_flags) : sig_flags :=
  { has_sha256_rsa := f.has_sha256_rsa || g.has_sha256_rsa,
    has_sha256_ecdsa := f.has_sha256_ecdsa || g.has_sha256_ecdsa,
    has_sha384_rsa := f.has_sha384_rsa || g.has_sha384_rsa,
    has_sha384_ecdsa := f.has_sha384_ecdsa || g.has_sha384_ecdsa,
    has_sha512_rsa := f.has_sha512_rsa || g.has_sha512_rsa,
    has_sha512_ecdsa := f.has_sha512_ecdsa || g.has_sha512_ecdsa }

instance (conf : srv_conf_t) : Decidable (canEcdsa conf) := by
  unfold canEcdsa; infer_instance

instance (conf : srv_conf_t) : Decidable (sigAlgsConsulted conf) := by
  unfold sigAlgsConsulted; infer_instance

instance (conf : srv_conf_t) (list : List uint8_t) : Decidable (scanEvaluated conf list) := by
  unfold scanEvaluated; infer_instance

/-! ## Concrete bundles and ClientHellos -/

/-- An unpopulated slot. -/
def emptySlot : ngx_ssl_t := { ctx := none }

/-- A slot holding the context with identity `n`, whose certificate is
signed with the algorithm `nid`. -/
def filledSlot (n : Nat) (nid : Int) : ngx_ssl_t :=
  { ctx := some { id := n, certificate := some { signature_nid := nid } } }

/-- A cipher table with one ECDSA suite (0xC02B) and one RSA suite
(0xC02F). -/
def exampleCiphers : Nat → Option SSL_CIPHER := fun v =>
  if v = 0xC02B then some { id := 0x0300C02B, is_ECDSA := true }
  else if v = 0xC02F then some { id := 0x0300C02F, is_ECDSA := false }
  else none

/-- A bundle with every slot populated and the ECDSA suite 0xC02B in its
cipher set. -/
def bundleAll : srv_conf_t :=
  { certificate := some ["a"], certificate_key := some ["a"],
    ssl_rsa := filledSlot 1 NID_sha1WithRSAEncryption,
    ssl_rsa_sha256 := filledSlot 2 NID_sha256WithRSAEncryption,
    ssl_rsa_sha384 := filledSlot 3 NID_sha384WithRSAEncryption,
    ssl_rsa_sha512 := filledSlot 4 NID_sha512WithRSAEncryption,
    ssl_ecdsa_sha256 := filledSlot 5 NID_ecdsa_with_SHA256,
    ssl_ecdsa_sha384 := filledSlot 6 NID_ecdsa_with_SHA384,
    ssl_ecdsa_sha512 := filledSlot 7 NID_ecdsa_with_SHA512,
    ecdsa_ciphers := [{ id := 0x0300C02B, is_ECDSA := true }] }

/-- A bundle whose only populated slot is RsaLegacy. -/
def bundleLegacyOnly : srv_conf_t :=
  { certificate := some ["a"], certificate_key := some ["a"],
    ssl_rsa := filledSlot 1 NID_sha1WithRSAEncryption,
    ssl_rsa_sha256 := emptySlot, ssl_rsa_sha384 := emptySlot, ssl_rsa_sha512 := emptySlot,
    ssl_ecdsa_sha256 := emptySlot, ssl_ecdsa_sha384 := emptySlot,
    ssl_ecdsa_sha512 := emptySlot,
    ecdsa_ciphers := [] }

/-- A bundle with RsaLegacy and RsaSha256 populated. -/
def bundleLegacySha256 : srv_conf_t :=
  { bundleLegacyOnly with ssl_rsa_sha256 := filledSlot 2 NID_sha256WithRSAEncryption }

/-- A bundle with exactly EcdsaSha256 and RsaSha256 populated and the ECDSA
suite 0xC02B in its cipher set. -/
def bundleScenarioC : srv_conf_t :=
  { certificate := some ["a", "b"], certificate_key := some ["a", "b"],
    ssl_rsa := emptySlot,
    ssl_rsa_sha256 := filledSlot 1 NID_sha256WithRSAEncryption,
    ssl_rsa_sha384 := emptySlot, ssl_rsa_sha512 := emptySlot,
    ssl_ecdsa_sha256 := filledSlot 2 NID_ecdsa_with_SHA256,
    ssl_ecdsa_sha384 := emptySlot, ssl_ecdsa_sha512 := emptySlot,
    ecdsa_ciphers := [{ id := 0x0300C02B, is_ECDSA := true }] }

/-- All six tracked pairs, in no particular order, after an untracked
one. -/
def sixPairs : List uint8_t := [2, 1, 4, 1, 6, 3, 5, 1, 4, 3, 6, 1, 5, 3]

/-- A ClientHello offering 0xC02F then 0xC02B, with the six pairs. -/
def helloAllSix : ssl_early_callback_ctx :=
  { cipher_suites := [0xC0, 0x2F, 0xC0, 0x2B],
    extensions := [(TLSEXT_TYPE_signature_algorithms, 0 :: 14 :: sixPairs)] }

/-- A ClientHello whose signature-algorithms extension declares 4 bytes and
holds 1. -/
def helloPastEnd : ssl_early_callback_ctx :=
  { cipher_suites := [0xC0, 0x2F],
    extensions := [(TLSEXT_TYPE_signature_algorithms, [0, 4, 4])] }

/-- A ClientHello without extensions. -/
def helloBare : ssl_early_callback_ctx :=
  { cipher_suites := [0xC0, 0x2F], extensions := [] }

/-- A ClientHello with a server-name extension only. -/
def helloServerName : ssl_early_callback_ctx :=
  { cipher_suites := [0xC0, 0x2F], extensions := [(TLSEXT_TYPE_server_name, [0, 0])] }

/-! ## Configuration time: create_srv_conf, set_conf_ssl_for_ctx with its
state, merge_srv_conf -/

/-- The function `create_srv_conf` when `ngx_pcalloc` succeeds: the zeroed
structure with both directive arrays unset. -/
def create_srv_conf : srv_conf_t :=
  { certificate := none, certificate_key := none,
    ssl_rsa := { ctx := none }, ssl_rsa_sha256 := { ctx := none },
    ssl_rsa_sha384 := { ctx := none }, ssl_rsa_sha512 := { ctx := none },
    ssl_ecdsa_sha256 := { ctx := none }, ssl_ecdsa_sha384 := { ctx := none },
    ssl_ecdsa_sha512 := { ctx := none },
    ecdsa_ciphers := [] }

/-- The loop of `set_conf_ssl_for_ctx` with the configuration behind `conf`
kept on every path: the returned pointer (`none` for `NULL`) and `*conf`
when the function returns. The only store is `*conf_ssl = *ssl`. -/
def set_conf_ssl_for_ctx_loop_st (conf : srv_conf_t) (ssl : ngx_ssl_t) (nid : Int) :
    List ssl_cert_sig_nid_st → Option Slot × srv_conf_t
  | [] => (none, conf)
  | e :: rest =>
    if e.nid = NID_undef then (none, conf)
    else if nid ≠ e.nid then set_conf_ssl_for_ctx_loop_st conf ssl nid rest
    else
      match e.offset with
      | none => (none, conf)
      | some s =>
        if (conf.slot s).ctx.isSome then (none, conf)
        else (some s, conf.setSlot s ssl)

/-- The function `set_conf_ssl_for_ctx` with the configuration behind `conf`
kept on every path. -/
def set_conf_ssl_for_ctx_st (conf : srv_conf_t) (ssl : ngx_ssl_t) : Option Slot × srv_conf_t :=
  match ssl.ctx with
  | none => (none, conf)
  | some c =>
    match c.certificate with
    | none => (none, conf)
    | some cert => set_conf_ssl_for_ctx_loop_st conf ssl cert.signature_nid kCertSigNIDs

/-- What a configuration handler returns. -/
inductive ngx_conf_rc where
  | NGX_CONF_OK
  | NGX_CONF_ERROR
deriving DecidableEq, Repr

/-- The host's `ngx_http_ssl_srv_conf_t` as far as the module reads it: its
`ssl` member and the stack `ssl.ctx->cipher_list->ciphers`. -/
structure ngx_http_ssl_srv_conf_t where
  ssl : ngx_ssl_t
  ciphers : List SSL_CIPHER
deriving DecidableEq, Repr

/-- The outcomes of the calls `merge_srv_conf` makes into the host and the
TLS library.
* `ssl`: what `ngx_http_conf_get_module_srv_conf` yields (`none` for `NULL`);
* `load i cert key`: the `new_ssl` that `ngx_ssl_create`,
  `ngx_pool_cleanup_add`, `ngx_ssl_certificate` and `ngx_ssl_session_cache`
  leave for entry `i`, `none` when one of the four fails;
* `sk_new_ok`: `sk_SSL_CIPHER_new` returns a stack;
* `sk_push_ok i`: the push of the host's `i`-th cipher succeeds;
* `ex_new_index`: what `SSL_CTX_get_ex_new_index` returns;
* `set_ex_data_ok`: `SSL_CTX_set_ex_data` succeeds. -/
structure merge_host where
  ssl : Option ngx_http_ssl_srv_conf_t
  load : Nat → String → String → Option ngx_ssl_t
  sk_new_ok : Bool
  sk_push_ok : Nat → Bool
  ex_new_index : Int
  set_ex_data_ok : Bool

/-- What `merge_srv_conf` leaves behind: `*conf`, the static
`g_ssl_ctx_exdata_srv_data_index`, and whether it reached
`SSL_CTX_set_select_certificate_cb`. -/
structure merge_state where
  conf : srv_conf_t
  g_ssl_ctx_exdata_srv_data_index : Int
  callback_set : Bool
deriving DecidableEq, Repr

/-- The macro `ngx_conf_merge_ptr_value(conf, prev, NULL)`. Before it `none`
is `NGX_CONF_UNSET_PTR` (what `create_srv_conf` stores); after it `none` is
`NULL`. -/
def ngx_conf_merge_ptr_value (conf prev : Option (List String)) : Option (List String) :=
  match conf with
  | some a => some a
  | none =>
    match prev with
    | some a => some a
    | none => none

/-- The loop `for (i = 1; i < conf->certificate->nelts; i++)` from index `i`
on, over the remaining `cert_elt[i]`, `key_elt[i]`: whether it ran to its
end, and `*conf` when it was left. -/
def merge_cert_loop (load : Nat → String → String → Option ngx_ssl_t) :
    Nat → List (String × String) → srv_conf_t → Bool × srv_conf_t
  | _, [], conf => (true, conf)
  | i, (cert, key) :: rest, conf =>
    match load i cert key with
    | none => (false, conf)
    | some new_ssl =>
      match set_conf_ssl_for_ctx_st conf new_ssl with
      | (none, conf1) => (false, conf1)
      | (some _, conf1) => merge_cert_loop load (i + 1) rest conf1

/-- The classification pass of `merge_srv_conf` (lines 176-211):
`set_conf_ssl_for_ctx` on the host's `ssl`, then the loop over the entries
from index 1. -/
def merge_classify (load : Nat → String → String → Option ngx_ssl_t)
    (ssl : ngx_http_ssl_srv_conf_t) (certificate certificate_key : List String)
    (conf : srv_conf_t) : Bool × srv_conf_t :=
  match set_conf_ssl_for_ctx_st conf ssl.ssl with
  | (none, conf1) => (false, conf1)
  | (some _, conf1) =>
    merge_cert_loop load 1 ((certificate.zip certificate_key).drop 1) conf1

/-- The loop over the host's cipher list from index `i` on: every ECDSA
cipher is pushed on the stack `sk`; a failed push ends the loop with
`false`. -/
def merge_push_loop (sk_push_ok : Nat → Bool) :
    Nat → List SSL_CIPHER → List SSL_CIPHER → Bool × List SSL_CIPHER
  | _, [], sk => (true, sk)
  | i, cipher :: rest, sk =>
    if cipher.is_ECDSA then
      if sk_push_ok i then merge_push_loop sk_push_ok (i + 1) rest (sk ++ [cipher])
      else (false, sk)
    else merge_push_loop sk_push_ok (i + 1) rest sk

/-- The order `ssl_cipher_ptr_id_cmp` induces: `a` may stand before `b`. -/
def cipher_le (a b : SSL_CIPHER) : Prop := ssl_cipher_ptr_id_cmp a b ≤ 0

instance : DecidableRel cipher_le := fun a b => by
  unfold cipher_le; infer_instance

/-- The call `sk_SSL_CIPHER_sort` on a stack with the comparator
`ssl_cipher_ptr_id_cmp`. The library sorts with `qsort`; an insertion sort
stands for it. -/
def sk_SSL_CIPHER_sort (sk : List SSL_CIPHER) : List SSL_CIPHER :=
  sk.insertionSort cipher_le

/-- The function `merge_srv_conf(cf, parent, child)`: `prev` is `parent`,
`conf` is `child`, `g_index` the static `g_ssl_ctx_exdata_srv_data_index`
before the call. -/
def merge_srv_conf (host : merge_host) (g_index : Int) (prev conf : srv_conf_t) :
    ngx_conf_rc × merge_state :=
  let conf0 : srv_conf_t :=
    { conf with
      certificate := ngx_conf_merge_ptr_value conf.certificate prev.certificate,
      certificate_key := ngx_conf_merge_ptr_value conf.certificate_key prev.certificate_key }
  match conf0.certificate, conf0.certificate_key with
  | none, none => (.NGX_CONF_OK, ⟨conf0, g_index, false⟩)
  | none, some _ => (.NGX_CONF_ERROR, ⟨conf0, g_index, false⟩)
  | some _, none => (.NGX_CONF_ERROR, ⟨conf0, g_index, false⟩)
  | some certificate, some certificate_key =>
    if certificate.length ≠ certificate_key.length then
      (.NGX_CONF_ERROR, ⟨conf0, g_index, false⟩)
    else
      match host.ssl with
      | none => (.NGX_CONF_ERROR, ⟨conf0, g_index, false⟩)
      | some ssl =>
        if ssl.ssl.ctx.isNone then (.NGX_CONF_ERROR, ⟨conf0, g_index, false⟩)
        else
          match merge_classify host.load ssl certificate certificate_key conf0 with
          | (false, conf1) => (.NGX_CONF_ERROR, ⟨conf1, g_index, false⟩)
          | (true, conf1) =>
            if !host.sk_new_ok then
              (.NGX_CONF_ERROR, ⟨{ conf1 with ecdsa_ciphers := [] }, g_index, false⟩)
            else
              match merge_push_loop host.sk_push_ok 0 ssl.ciphers [] with
              | (false, sk) =>
                (.NGX_CONF_ERROR, ⟨{ conf1 with ecdsa_ciphers := sk }, g_index, false⟩)
              | (true, sk) =>
                let conf2 : srv_conf_t :=
                  { conf1 with ecdsa_ciphers := sk_SSL_CIPHER_sort sk }
                let g1 : Int := if g_index = -1 then host.ex_new_index else g_index
                if g1 = -1 then (.NGX_CONF_ERROR, ⟨conf2, g1, false⟩)
                else if !host.set_ex_data_ok then (.NGX_CONF_ERROR, ⟨conf2, g1, false⟩)
                else (.NGX_CONF_OK, ⟨conf2, g1, true⟩)

/-- The binary search `sk_SSL_CIPHER_find` runs on a sorted stack: the
middle element of the range is compared with the key `p`; on a difference
the search goes on in the half before or behind it. `fuel` bounds the
number of rounds; the length of the stack is enough. -/
def sk_bsearch (p : SSL_CIPHER) : Nat → List SSL_CIPHER → Bool
  | 0, _ => false
  | fuel + 1, sk =>
    match sk.get? (sk.length / 2) with
    | none => false
    | some c =>
      if ssl_cipher_ptr_id_cmp p c = 0 then true
      else if ssl_cipher_ptr_id_cmp p c < 0 then sk_bsearch p fuel (sk.take (sk.length / 2))
      else sk_bsearch p fuel (sk.drop (sk.length / 2 + 1))

/-! ## The specification's vocabulary, configuration time -/

/-- The spec's `certificateSignatureAlgorithm(ServingContext)`: the signature
algorithm of the certificate a context is bound to. -/
def certificateSignatureAlgorithm (ssl : ngx_ssl_t) : Option Int :=
  ssl.ctx.bind (fun c => c.certificate.map (fun x => x.signature_nid))

/-- The slot the spec's Slot Table assigns to a signature algorithm, `none`
for an unrecognized one. -/
def slotOfNid (nid : Int) : Option Slot :=
  (SlotTable.find? (fun p => p.1 == nid)).map (fun p => p.2)

/-- The seven slots. -/
def Slot.all : List Slot :=
  [.RsaLegacy, .RsaSha256, .RsaSha384, .RsaSha512, .EcdsaSha256, .EcdsaSha384, .EcdsaSha512]

/-- The populated slots of a bundle. -/
def srv_conf_t.populatedSlots (conf : srv_conf_t) : List Slot :=
  Slot.all.filter conf.populated

/-- The spec's condition on the signature algorithms of the certificates of
a bundle: each is one of the eight table entries, and no two classify to
the same slot. -/
def Classifiable (nids : List Int) : Prop :=
  (∀ nid ∈ nids, slotOfNid nid ≠ none) ∧ (nids.map slotOfNid).Nodup

instance (nids : List Int) : Decidable (Classifiable nids) := by
  unfold Classifiable; infer_instance

/-- The ClientHello with its signature-algorithms extension removed. -/
def removeSigAlgs (ctx : ssl_early_callback_ctx) : ssl_early_callback_ctx :=
  { ctx with
    extensions := ctx.extensions.filter (fun e => e.1 != TLSEXT_TYPE_signature_algorithms) }

/-- The pair (hash, signature) stands at an even offset of the list. -/
def occursAtEvenOffset (list : List uint8_t) (hash sign : Nat) : Prop :=
  ∃ (k : Nat) (h s : uint8_t),
    list.get? (2 * k) = some h ∧ list.get? (2 * k + 1) = some s ∧ h.val = hash ∧ s.val = sign

/-- The spec's full scan of a signature-algorithms list, without early exit:
every pair is looked at, a tracked pair sets its flag, any other pair is
skipped. -/
def fullScan : List uint8_t → sig_flags → sig_flags
  | hash :: sign :: rest, f =>
    fullScan rest
      { has_sha256_rsa := f.has_sha256_rsa
          || decide (hash.val = TLSEXT_hash_sha256 ∧ sign.val = TLSEXT_signature_rsa),
        has_sha256_ecdsa := f.has_sha256_ecdsa
          || decide (hash.val = TLSEXT_hash_sha256 ∧ sign.val = TLSEXT_signature_ecdsa),
        has_sha384_rsa := f.has_sha384_rsa
          || decide (hash.val = TLSEXT_hash_sha384 ∧ sign.val = TLSEXT_signature_rsa),
        has_sha384_ecdsa := f.has_sha384_ecdsa
          || decide (hash.val = TLSEXT_hash_sha384 ∧ sign.val = TLSEXT_signature_ecdsa),
        has_sha512_rsa := f.has_sha512_rsa
          || decide (hash.val = TLSEXT_hash_sha512 ∧ sign.val = TLSEXT_signature_rsa),
        has_sha512_ecdsa := f.has_sha512_ecdsa
          || decide (hash.val = TLSEXT_hash_sha512 ∧ sign.val = TLSEXT_signature_ecdsa) }
  | _, f => f

/-- The connection `ctx->ssl` as far as the callback touches it: the context
it currently uses. -/
structure SSL where
  ctx : Option SSL_CTX
deriving DecidableEq, Repr

/-- The callback with the state it can reach, the configuration behind the
ex-data pointer and the connection: its `int`, and both after the call.
`SSL_set_SSL_CTX` stores the context of the chosen slot in the connection;
the callback has no store through `conf`. -/
def select_certificate_cb_st (SSL_get_cipher_by_value : Nat → Option SSL_CIPHER)
    (conf : srv_conf_t) (ssl : SSL) (ctx : ssl_early_callback_ctx) :
    Int × srv_conf_t × SSL :=
  let r := select_certificate_cb SSL_get_cipher_by_value conf ctx
  match r.installed with
  | none => (r.ret, conf, ssl)
  | some s => (r.ret, conf, { ctx := (conf.slot s).ctx })

/-- A host whose context carries a SHA256-with-RSA certificate and whose
cipher list holds two ECDSA suites out of order around an RSA suite; entry
1 loads an ECDSA-with-SHA256 certificate, entry 2 an MD5-with-RSA one. -/
def exampleHost : merge_host :=
  { ssl := some
      { ssl := filledSlot 1 NID_sha256WithRSAEncryption,
        ciphers := [{ id := 0x0300C02C, is_ECDSA := true },
                    { id := 0x0300C02F, is_ECDSA := false },
                    { id := 0x0300C02B, is_ECDSA := true }] },
    load := fun i _ _ =>
      if i = 1 then some (filledSlot 2 NID_ecdsa_with_SHA256)
      else if i = 2 then some (filledSlot 3 NID_md5WithRSAEncryption)
      else none,
    sk_new_ok := true,
    sk_push_ok := fun _ => true,
    ex_new_index := 0,
    set_ex_data_ok := true }

/-- A server configuration as the directives leave it: fresh from
`create_srv_conf`, with the given certificate and key arrays. -/
def configured (certificate certificate_key : Option (List String)) : srv_conf_t :=
  { create_srv_conf with certificate := certificate, certificate_key := certificate_key }

/-- The (hash, signature) pair a slot stands for; RsaLegacy stands for
none of the tracked pairs. -/
def Slot.pair : Slot → Option (Nat × Nat)
  | .ssl_rsa => none
  | .ssl_rsa_sha256 => some (TLSEXT_hash_sha256, TLSEXT_signature_rsa)
  | .ssl_rsa_sha384 => some (TLSEXT_hash_sha384, TLSEXT_signature_rsa)
  | .ssl_rsa_sha512 => some (TLSEXT_hash_sha512, TLSEXT_signature_rsa)
  | .ssl_ecdsa_sha256 => some (TLSEXT_hash_sha256, TLSEXT_signature_ecdsa)
  | .ssl_ecdsa_sha384 => some (TLSEXT_hash_sha384, TLSEXT_signature_ecdsa)
  | .ssl_ecdsa_sha512 => some (TLSEXT_hash_sha512, TLSEXT_signature_ecdsa)

/-- The spec's mismatch of the configured certificates and keys: only one of
the two lists is configured, or both are and their numbers differ. -/
def countMismatch (certs keys : Option (List String)) : Prop :=
  (certs = none ∧ keys ≠ none) ∨ (certs ≠ none ∧ keys = none)
    ∨ ∃ cs ks, certs = some cs ∧ keys = some ks ∧ cs.length ≠ ks.length

/-! ## Auxiliary lemmas -/

theorem u16_be (hi lo : Nat) (h : lo < 256) : (hi <<< 8) ||| lo = hi * 256 + lo := by
  have h2 : lo < 2 ^ 8 := by simpa using h
  have := Nat.mul_add_lt_is_or h2 hi
  rw [Nat.shiftLeft_eq, Nat.mul_comm, ← this]

theorem sig_flags.init_join (g : sig_flags) : sig_flags.init.join g = g := by
  cases g; simp [sig_flags.join, sig_flags.init]

theorem sig_flags.join_of_all (f g : sig_flags) (h : f.all = true) : f.join g = f := by
  cases f; cases g
  simp [sig_flags.all] at h
  simp [sig_flags.join, h]

/-- The switch on two bytes, by cases on the pair. -/
theorem sig_switch_bytes (hash sign : uint8_t) (f : sig_flags) :
    sig_switch hash.val sign.val f =
      if (hash.val, sign.val) = (TLSEXT_hash_sha256, TLSEXT_signature_rsa) then
        some { f with has_sha256_rsa := true }
      else if (hash.val, sign.val) = (TLSEXT_hash_sha384, TLSEXT_signature_rsa) then
        some { f with has_sha384_rsa := true }
      else if (hash.val, sign.val) = (TLSEXT_hash_sha512, TLSEXT_signature_rsa) then
        some { f with has_sha512_rsa := true }
      else if (hash.val, sign.val) = (TLSEXT_hash_sha256, TLSEXT_signature_ecdsa) then
        some { f with has_sha256_ecdsa := true }
      else if (hash.val, sign.val) = (TLSEXT_hash_sha384, TLSEXT_signature_ecdsa) then
        some { f with has_sha384_ecdsa := true }
      else if (hash.val, sign.val) = (TLSEXT_hash_sha512, TLSEXT_signature_ecdsa) then
        some { f with has_sha512_ecdsa := true }
      else none := by
  have hh := hash.isLt
  have hs := sign.isLt
  unfold sig_switch
  simp only [u16_be _ _ hh, TLSEXT_hash_sha256, TLSEXT_hash_sha384, TLSEXT_hash_sha512,
    TLSEXT_signature_rsa, TLSEXT_signature_ecdsa, Prod.mk.injEq]
  have e : ∀ a b : Nat, b < 256 → (sign.val * 256 + hash.val = a * 256 + b ↔
      hash.val = b ∧ sign.val = a) := by
    intro a b hb; omega
  have e1 := e 1 4 (by norm_num)
  have e2 := e 1 5 (by norm_num)
  have e3 := e 1 6 (by norm_num)
  have e4 := e 3 4 (by norm_num)
  have e5 := e 3 5 (by norm_num)
  have e6 := e 3 6 (by norm_num)
  have c1 : (1 <<< 8) ||| 4 = 1 * 256 + 4 := by decide
  have c2 : (1 <<< 8) ||| 5 = 1 * 256 + 5 := by decide
  have c3 : (1 <<< 8) ||| 6 = 1 * 256 + 6 := by decide
  have c4 : (3 <<< 8) ||| 4 = 3 * 256 + 4 := by decide
  have c5 : (3 <<< 8) ||| 5 = 3 * 256 + 5 := by decide
  have c6 : (3 <<< 8) ||| 6 = 3 * 256 + 6 := by decide
  simp only [c1, c2, c3, c4, c5, c6, e1, e2, e3, e4, e5, e6]

theorem hasPair_cons (hash sign : uint8_t) (rest : List uint8_t) (a b : Nat) :
    hasPair (hash :: sign :: rest) a b
      = (decide ((hash.val, sign.val) = (a, b)) || hasPair rest a b) := by
  simp [hasPair, sig_pairs, eq_comm]

/-- One round of the loop adds to `f` what the full scan adds for the
round's pair. -/
theorem join_SignatureAlgorithmSet_cons (hash sign : uint8_t) (rest : List uint8_t)
    (f : sig_flags) :
    f.join (SignatureAlgorithmSet (hash :: sign :: rest))
      = ((sig_switch hash.val sign.val f).getD f).join (SignatureAlgorithmSet rest) := by
  rw [sig_switch_bytes]
  simp only [SignatureAlgorithmSet, hasPair_cons, sig_flags.join]
  simp only [TLSEXT_hash_sha256, TLSEXT_hash_sha384, TLSEXT_hash_sha512,
    TLSEXT_signature_rsa, TLSEXT_signature_ecdsa, Prod.mk.injEq]
  split_ifs <;> simp_all
  rename_i h1 h2 h3 h4 h5 h6
  have k : ∀ a b : Nat, (hash.val = a → ¬ sign.val = b) →
      (decide (hash.val = a) && decide (sign.val = b)) = false := by
    intro a b h
    by_cases e : hash.val = a
    · simpa [e] using h e
    · simp [e]
  simp [k _ _ h1, k _ _ h2, k _ _ h3, k _ _ h4, k _ _ h5, k _ _ h6]

/-- On a list of even length the loop, early exit included, computes the
flags of the full scan, added to the flags it starts from. -/
theorem sig_algs_loop_even : ∀ (list : List uint8_t) (f : sig_flags),
    list.length % 2 = 0 →
      sig_algs_loop list f = some (f.join (SignatureAlgorithmSet list))
  | [], f, _ => by
    cases f
    simp [sig_algs_loop, SignatureAlgorithmSet, hasPair, sig_pairs, sig_flags.join]
  | [_], _, h => by simp at h
  | hash :: sign :: rest, f, h => by
    have hrest : rest.length % 2 = 0 := by
      simp only [List.length_cons] at h; omega
    rw [join_SignatureAlgorithmSet_cons, sig_algs_loop]
    cases hsw : sig_switch hash.val sign.val f with
    | none => simpa using sig_algs_loop_even rest f hrest
    | some g =>
      by_cases hall : g.all = true
      · simp [hall, sig_flags.join_of_all]
      · simpa [hall] using sig_algs_loop_even rest g hrest

/-- The flags the loop leaves on a well-formed list. -/
theorem sig_algs_loop_init (list : List uint8_t) (h : list.length % 2 = 0) :
    sig_algs_loop list sig_flags.init = some (SignatureAlgorithmSet list) := by
  rw [sig_algs_loop_even list _ h, sig_flags.init_join]

theorem offered_suites_cons (hi lo : uint8_t) (rest : List uint8_t) :
    offered_suites (hi :: lo :: rest) = (hi.val * 256 + lo.val) :: offered_suites rest := rfl

/-- The cipher-suite loop: it succeeds with `has_ecdsa = 1` as soon as an
offered suite is compatible; without a compatible suite it fails on a list
of odd length and ends with `has_ecdsa = 0` on one of even length. -/
theorem cipher_suites_loop_fst (tbl : Nat → Option SSL_CIPHER) (set : List SSL_CIPHER) :
    ∀ cs : List uint8_t,
      (cipher_suites_loop tbl set cs).map (fun r => r.1) =
        if (offered_suites cs).any (suiteCompatible tbl set) = true then some true
        else if cs.length % 2 = 1 then none
        else some false
  | [] => by simp [cipher_suites_loop, offered_suites]
  | [_] => by simp [cipher_suites_loop, offered_suites]
  | hi :: lo :: rest => by
    have ih := cipher_suites_loop_fst tbl set rest
    have hlen : (hi :: lo :: rest).length % 2 = rest.length % 2 := by
      simp only [List.length_cons]; omega
    rw [cipher_suites_loop, offered_suites_cons, List.any_cons, hlen, u16_be _ _ lo.isLt]
    unfold suiteCompatible
    cases htbl : tbl (hi.val * 256 + lo.val) with
    | none => simpa [suiteCompatible] using ih
    | some cipher =>
      by_cases hc : (cipher.is_ECDSA && sk_SSL_CIPHER_find set cipher) = true
      · simp [hc]
      · simpa [hc, suiteCompatible] using ih

theorem can_ecdsa_iff (conf : srv_conf_t) : can_ecdsa conf = true ↔ canEcdsa conf := by
  cases hc : conf.ecdsa_ciphers <;>
    simp [can_ecdsa, canEcdsa, srv_conf_t.populated, srv_conf_t.slot, sk_SSL_CIPHER_num, hc,
      or_assoc]

theorem consulted_iff (conf : srv_conf_t) :
    (can_ecdsa conf || conf.ssl_rsa_sha256.ctx.isSome || conf.ssl_rsa_sha384.ctx.isSome
        || conf.ssl_rsa_sha512.ctx.isSome) = true ↔ sigAlgsConsulted conf := by
  simp only [sigAlgsConsulted, ← can_ecdsa_iff, srv_conf_t.populated, srv_conf_t.slot,
    Bool.or_eq_true, or_assoc]

theorem hasServerName_eq (ctx : ssl_early_callback_ctx) :
    (SSL_early_callback_ctx_extension_get ctx TLSEXT_TYPE_server_name).isSome
      = hasServerName ctx := by
  unfold SSL_early_callback_ctx_extension_get hasServerName
  induction ctx.extensions with
  | nil => rfl
  | cons e rest ih =>
    by_cases h : (e.1 == TLSEXT_TYPE_server_name) = true
    · simp [List.find?_cons, h]
    · simpa [List.find?_cons, h] using ih

/-- The code from `continue_check` on is the fallback step. -/
theorem continue_check_eq (conf : srv_conf_t) (ctx : ssl_early_callback_ctx) :
    continue_check conf ctx = fallbackOutcome conf ctx := by
  unfold continue_check fallbackOutcome
  simp only [hasServerName_eq, srv_conf_t.populated, srv_conf_t.slot, Bool.and_eq_true]

/-- The length-prefixed read on a well-formed extension yields the list and
leaves nothing. -/
theorem get_u16_length_prefixed_wf (ext list : List uint8_t) (h : SigAlgsWellFormed ext list) :
    CBS_get_u16_length_prefixed ext = some (list, []) := by
  obtain ⟨hi, lo, rfl, hlen, -, -⟩ := h
  simp [CBS_get_u16_length_prefixed, CBS_get_u16, CBS_get_bytes, u16_be _ _ lo.isLt, hlen]

/-- The length-prefixed read on a malformed extension fails, or leaves bytes
behind, or yields an empty list or one of odd length. -/
theorem get_u16_length_prefixed_malformed (ext : List uint8_t) (h : SigAlgsMalformed ext) :
    CBS_get_u16_length_prefixed ext = none ∨
      ∃ sup rest, CBS_get_u16_length_prefixed ext = some (sup, rest) ∧
        (rest.length ≠ 0 ∨ sup.length = 0 ∨ sup.length % 2 = 1) := by
  match ext, h with
  | [], _ => left; rfl
  | [_], _ => left; rfl
  | hi :: lo :: body, h =>
    simp only [SigAlgsMalformed] at h
    simp only [CBS_get_u16_length_prefixed, CBS_get_u16, CBS_get_bytes, u16_be _ _ lo.isLt]
    by_cases hlt : body.length < hi.val * 256 + lo.val
    · left; simp [hlt]
    · right
      refine ⟨body.take (hi.val * 256 + lo.val), body.drop (hi.val * 256 + lo.val), ?_, ?_⟩
      · simp [hlt]
      · simp only [List.length_take, List.length_drop]
        omega

/-- Without the bundle condition of step 2 the extension is not looked at. -/
theorem select_of_not_consulted (tbl : Nat → Option SSL_CIPHER) (conf : srv_conf_t)
    (ctx : ssl_early_callback_ctx) (h : ¬ sigAlgsConsulted conf) :
    select_certificate_cb tbl conf ctx = fallbackOutcome conf ctx := by
  rw [← consulted_iff] at h
  unfold select_certificate_cb
  rw [if_neg h, continue_check_eq]

/-- Without the extension the callback goes to `continue_check`. -/
theorem select_of_absent (tbl : Nat → Option SSL_CIPHER) (conf : srv_conf_t)
    (ctx : ssl_early_callback_ctx)
    (h : SSL_early_callback_ctx_extension_get ctx TLSEXT_TYPE_signature_algorithms = none) :
    select_certificate_cb tbl conf ctx = fallbackOutcome conf ctx := by
  unfold select_certificate_cb
  simp only [h, continue_check_eq, ite_self]

/-- A malformed extension that is looked at aborts the handshake. -/
theorem select_of_malformed (tbl : Nat → Option SSL_CIPHER) (conf : srv_conf_t)
    (ctx : ssl_early_callback_ctx) (ext : List uint8_t) (hc : sigAlgsConsulted conf)
    (hext : SSL_early_callback_ctx_extension_get ctx TLSEXT_TYPE_signature_algorithms
      = some ext)
    (hmal : SigAlgsMalformed ext) :
    select_certificate_cb tbl conf ctx = cb_result.parseError := by
  rw [← consulted_iff] at hc
  unfold select_certificate_cb
  rw [if_pos hc]
  simp only [hext]
  rcases get_u16_length_prefixed_malformed ext hmal with h | ⟨sup, rest, h, hbad⟩
  · simp only [h]
  · simp only [h, CBS_len]
    rcases hbad with hb | hb | hb
    · simp [hb]
    · simp [hb]
    · by_cases h0 : (rest.length != 0 || sup.length == 0) = true
      · simp [h0]
      · simp [h0, hb]

/-- On a well-formed extension that is looked at, the callback runs the
cipher-suite block on the flags of the full scan and then the chain. -/
theorem select_of_wf (tbl : Nat → Option SSL_CIPHER) (conf : srv_conf_t)
    (ctx : ssl_early_callback_ctx) (ext list : List uint8_t) (hc : sigAlgsConsulted conf)
    (hext : SSL_early_callback_ctx_extension_get ctx TLSEXT_TYPE_signature_algorithms
      = some ext)
    (hwf : SigAlgsWellFormed ext list) :
    select_certificate_cb tbl conf ctx =
      match cipher_suites_block tbl conf ctx (SignatureAlgorithmSet list) with
      | none => cb_result.parseError
      | some has_ecdsa =>
        match select_chain conf has_ecdsa (SignatureAlgorithmSet list) with
        | some s => cb_result.selected s
        | none => fallbackOutcome conf ctx := by
  rw [← consulted_iff] at hc
  have hparse := get_u16_length_prefixed_wf ext list hwf
  obtain ⟨_, _, -, -, hne, heven⟩ := hwf
  have hlen : list.length ≠ 0 := fun h => hne (List.length_eq_zero.mp h)
  unfold select_certificate_cb
  rw [if_pos hc]
  simp only [hext, hparse, CBS_len, sig_algs_loop_init list heven, continue_check_eq]
  simp [hlen, heven]

/-- The cipher-suite block in the spec's words. -/
theorem cipher_suites_block_eq (tbl : Nat → Option SSL_CIPHER) (conf : srv_conf_t)
    (ctx : ssl_early_callback_ctx) (f : sig_flags) :
    cipher_suites_block tbl conf ctx f =
      if can_ecdsa conf = true ∧
          (f.has_sha256_ecdsa || f.has_sha384_ecdsa || f.has_sha512_ecdsa) = true then
        if hasEcdsaCipher tbl conf ctx = true then some true
        else if ctx.cipher_suites.length % 2 = 1 then none
        else some false
      else some false := by
  unfold cipher_suites_block hasEcdsaCipher
  rw [cipher_suites_loop_fst]
  simp only [Bool.and_eq_true]

/-- With an empty ECDSA cipher set no suite is compatible. -/
theorem hasEcdsaCipher_of_nil (tbl : Nat → Option SSL_CIPHER) (conf : srv_conf_t)
    (ctx : ssl_early_callback_ctx) (h : conf.ecdsa_ciphers = []) :
    hasEcdsaCipher tbl conf ctx = false := by
  unfold hasEcdsaCipher
  rw [h, List.any_eq_false]
  intro v _
  unfold suiteCompatible
  cases tbl v <;> simp [sk_SSL_CIPHER_find]

/-- The chain of the code is the first satisfied rule of the spec. -/
theorem select_chain_eq (conf : srv_conf_t) (has_ecdsa : Bool) (f : sig_flags) :
    select_chain conf has_ecdsa f = firstSatisfiedRule conf has_ecdsa f := by
  unfold select_chain firstSatisfiedRule priorityRules
  simp only [srv_conf_t.populated, srv_conf_t.slot]
  generalize (conf.ssl_ecdsa_sha512.ctx.isSome && has_ecdsa && f.has_sha512_ecdsa) = c1
  generalize (conf.ssl_ecdsa_sha384.ctx.isSome && has_ecdsa && f.has_sha384_ecdsa) = c2
  generalize (conf.ssl_ecdsa_sha256.ctx.isSome && has_ecdsa && f.has_sha256_ecdsa) = c3
  generalize (conf.ssl_rsa_sha512.ctx.isSome && f.has_sha512_rsa) = c4
  generalize (conf.ssl_rsa_sha384.ctx.isSome && f.has_sha384_rsa) = c5
  generalize (conf.ssl_rsa_sha256.ctx.isSome && f.has_sha256_rsa) = c6
  cases c1 <;> cases c2 <;> cases c3 <;> cases c4 <;> cases c5 <;> cases c6 <;> rfl

/-- When the cipher-suite block does not fail, the chain decides as if
`has_ecdsa` were the spec's CipherCompatibility. -/
theorem select_chain_block (tbl : Nat → Option SSL_CIPHER) (conf : srv_conf_t)
    (ctx : ssl_early_callback_ctx) (f : sig_flags) (has_ecdsa : Bool)
    (h : cipher_suites_block tbl conf ctx f = some has_ecdsa) :
    select_chain conf has_ecdsa f = firstSatisfiedRule conf (hasEcdsaCipher tbl conf ctx) f := by
  rw [cipher_suites_block_eq] at h
  rw [select_chain_eq]
  split_ifs at h with h1 h2 h3
  · simp only [Option.some.injEq] at h; rw [h2, ← h]
  · simp only [Option.some.injEq] at h
    rw [← h]; simp only [Bool.not_eq_true] at h2; rw [h2]
  · simp only [Option.some.injEq] at h
    subst h
    by_cases hnil : conf.ecdsa_ciphers = []
    · rw [hasEcdsaCipher_of_nil tbl conf ctx hnil]
    · have hflags : ¬ ((conf.ssl_ecdsa_sha256.ctx.isSome || conf.ssl_ecdsa_sha384.ctx.isSome
            || conf.ssl_ecdsa_sha512.ctx.isSome) = true
          ∧ (f.has_sha256_ecdsa || f.has_sha384_ecdsa || f.has_sha512_ecdsa) = true) := by
        intro hh
        apply h1
        refine ⟨?_, hh.2⟩
        have : sk_SSL_CIPHER_num conf.ecdsa_ciphers ≠ 0 := by
          simpa [sk_SSL_CIPHER_num] using hnil
        simp [can_ecdsa, hh.1, this]
      unfold firstSatisfiedRule priorityRules
      simp only [srv_conf_t.populated, srv_conf_t.slot]
      cases hE : hasEcdsaCipher tbl conf ctx
      · rfl
      · revert hflags
        cases conf.ssl_ecdsa_sha256.ctx.isSome <;> cases conf.ssl_ecdsa_sha384.ctx.isSome <;>
          cases conf.ssl_ecdsa_sha512.ctx.isSome <;> cases f.has_sha256_ecdsa <;>
          cases f.has_sha384_ecdsa <;> cases f.has_sha512_ecdsa <;> simp

/-- The cipher-suite loop stops at the first compatible suite: it leaves
with `has_ecdsa = 1` and the cursor right behind that suite. -/
theorem cipher_suites_loop_first_match (tbl : Nat → Option SSL_CIPHER)
    (set : List SSL_CIPHER) (hi lo : uint8_t) (post : List uint8_t)
    (hyes : suiteCompatible tbl set (hi.val * 256 + lo.val) = true) :
    ∀ pre : List uint8_t, pre.length % 2 = 0 →
      (∀ v ∈ offered_suites pre, suiteCompatible tbl set v = false) →
      cipher_suites_loop tbl set (pre ++ hi :: lo :: post) = some (true, post)
  | [], _, _ => by
    unfold suiteCompatible at hyes
    rw [List.nil_append, cipher_suites_loop, u16_be _ _ lo.isLt]
    cases htbl : tbl (hi.val * 256 + lo.val) with
    | none => simp [htbl] at hyes
    | some cipher =>
      rw [htbl] at hyes
      simp only [] at hyes
      simp [hyes]
  | [_], h, _ => by simp at h
  | a :: b :: pre, h, hno => by
    have hpre : pre.length % 2 = 0 := by
      simp only [List.length_cons] at h; omega
    have hab : suiteCompatible tbl set (a.val * 256 + b.val) = false :=
      hno _ (by simp [offered_suites])
    have ih := cipher_suites_loop_first_match tbl set hi lo post hyes pre hpre
      (fun v hv => hno v (by simp [offered_suites, hv]))
    unfold suiteCompatible at hab
    rw [List.cons_append, List.cons_append, cipher_suites_loop, u16_be _ _ b.isLt]
    cases htbl : tbl (a.val * 256 + b.val) with
    | none => simpa using ih
    | some cipher =>
      rw [htbl] at hab
      simp only [] at hab
      simpa [hab] using ih

/-- The callback reads the ClientHello only through its extensions and the
cipher-suite block. -/
theorem select_congr (tbl : Nat → Option SSL_CIPHER) (conf : srv_conf_t)
    (ctx ctx2 : ssl_early_callback_ctx) (hE : ctx2.extensions = ctx.extensions)
    (hB : ∀ f, cipher_suites_block tbl conf ctx2 f = cipher_suites_block tbl conf ctx f) :
    select_certificate_cb tbl conf ctx2 = select_certificate_cb tbl conf ctx := by
  unfold select_certificate_cb continue_check SSL_early_callback_ctx_extension_get
  simp only [hE, hB]

theorem scanEvaluated_iff (conf : srv_conf_t) (list : List uint8_t) :
    scanEvaluated conf list ↔
      (can_ecdsa conf = true ∧
        ((SignatureAlgorithmSet list).has_sha256_ecdsa
          || (SignatureAlgorithmSet list).has_sha384_ecdsa
          || (SignatureAlgorithmSet list).has_sha512_ecdsa) = true) := by
  simp only [scanEvaluated, can_ecdsa_iff, SignatureAlgorithmSet, Bool.or_eq_true, or_assoc]

/-- The loop over `kCertSigNIDs` in the spec's words: it addresses the slot
the Slot Table gives for the NID, and fails when there is none or the slot
is populated. -/
theorem set_conf_ssl_for_ctx_loop_table (conf : srv_conf_t) (ssl : ngx_ssl_t) (nid : Int) :
    set_conf_ssl_for_ctx_loop conf ssl nid kCertSigNIDs =
      match SlotTable.find? (fun p => p.1 == nid) with
      | none => none
      | some p =>
        if conf.populated p.2 = true then none else some (p.2, conf.setSlot p.2 ssl) := by
  simp only [kCertSigNIDs, set_conf_ssl_for_ctx_loop, SlotTable, List.find?_cons,
    srv_conf_t.populated, NID_undef, NID_md5WithRSAEncryption, NID_sha1WithRSAEncryption,
    NID_sha256WithRSAEncryption, NID_sha384WithRSAEncryption, NID_sha512WithRSAEncryption,
    NID_ecdsa_with_SHA256, NID_ecdsa_with_SHA384, NID_ecdsa_with_SHA512]
  by_cases h1 : nid = 8
  · subst h1; simp
  by_cases h2 : nid = 65
  · subst h2; simp
  by_cases h3 : nid = 668
  · subst h3; simp
  by_cases h4 : nid = 669
  · subst h4; simp
  by_cases h5 : nid = 670
  · subst h5; simp
  by_cases h6 : nid = 794
  · subst h6; simp
  by_cases h7 : nid = 795
  · subst h7; simp
  by_cases h8 : nid = 796
  · subst h8; simp
  have e : ∀ k : Int, nid ≠ k → ((k == nid) = false) := by
    intro k hk
    cases hb : k == nid
    · rfl
    · exact absurd (eq_of_beq hb).symm hk
  simp [h1, h2, h3, h4, h5, h6, h7, h8, e]

theorem fallbackOutcome_ne_parseError (conf : srv_conf_t) (ctx : ssl_early_callback_ctx) :
    fallbackOutcome conf ctx ≠ cb_result.parseError := by
  unfold fallbackOutcome
  split_ifs <;> simp [cb_result.selected, cb_result.useDefault, cb_result.parseError]

/-! ### Configuration time -/

theorem slot_setSlot (conf : srv_conf_t) (s t : Slot) (ssl : ngx_ssl_t) :
    (conf.setSlot s ssl).slot t = if t = s then ssl else conf.slot t := by
  cases s <;> cases t <;> rfl

theorem ecdsa_ciphers_setSlot (conf : srv_conf_t) (s : Slot) (ssl : ngx_ssl_t) :
    (conf.setSlot s ssl).ecdsa_ciphers = conf.ecdsa_ciphers := by
  cases s <;> rfl

theorem certificate_setSlot (conf : srv_conf_t) (s : Slot) (ssl : ngx_ssl_t) :
    (conf.setSlot s ssl).certificate = conf.certificate
      ∧ (conf.setSlot s ssl).certificate_key = conf.certificate_key := by
  cases s <;> exact ⟨rfl, rfl⟩

/-- The loop with its state agrees with the loop that returns the
configuration on success only. -/
theorem set_conf_ssl_for_ctx_loop_st_eq (conf : srv_conf_t) (ssl : ngx_ssl_t) (nid : Int) :
    ∀ l : List ssl_cert_sig_nid_st,
      set_conf_ssl_for_ctx_loop_st conf ssl nid l =
        match set_conf_ssl_for_ctx_loop conf ssl nid l with
        | none => (none, conf)
        | some (s, c) => (some s, c)
  | [] => rfl
  | e :: rest => by
    have ih := set_conf_ssl_for_ctx_loop_st_eq conf ssl nid rest
    unfold set_conf_ssl_for_ctx_loop_st set_conf_ssl_for_ctx_loop
    by_cases h1 : e.nid = NID_undef
    · simp [h1]
    · by_cases h2 : nid ≠ e.nid
      · simp only [h1, h2, if_false, if_true, ne_eq, not_false_eq_true]
        exact ih
      · simp only [h1, h2, if_false]
        cases e.offset with
        | none => rfl
        | some s =>
          by_cases h3 : (conf.slot s).ctx.isSome = true
          · simp [h3]
          · simp [h3]

/-- The function with its state agrees with the function that returns the
configuration on success only. -/
theorem set_conf_ssl_for_ctx_st_eq (conf : srv_conf_t) (ssl : ngx_ssl_t) :
    set_conf_ssl_for_ctx_st conf ssl =
      match set_conf_ssl_for_ctx conf ssl with
      | none => (none, conf)
      | some (s, c) => (some s, c) := by
  unfold set_conf_ssl_for_ctx_st set_conf_ssl_for_ctx
  cases ssl.ctx with
  | none => rfl
  | some c =>
    cases hx : c.certificate with
    | none => simp only [hx]
    | some cert =>
      simp only [hx]
      exact set_conf_ssl_for_ctx_loop_st_eq conf ssl cert.signature_nid kCertSigNIDs

/-- The function in the spec's words, for a context bound to a certificate
with signature algorithm `nid`. -/
theorem set_conf_ssl_for_ctx_st_spec (conf : srv_conf_t) (ssl : ngx_ssl_t) (nid : Int)
    (h : certificateSignatureAlgorithm ssl = some nid) :
    set_conf_ssl_for_ctx_st conf ssl =
      match slotOfNid nid with
      | none => (none, conf)
      | some s =>
        if conf.populated s = true then (none, conf) else (some s, conf.setSlot s ssl) := by
  unfold certificateSignatureAlgorithm at h
  rw [set_conf_ssl_for_ctx_st_eq]
  unfold set_conf_ssl_for_ctx
  cases hc : ssl.ctx with
  | none => simp [hc] at h
  | some c =>
    cases hx : c.certificate with
    | none => simp [hc, hx] at h
    | some cert =>
      have hn : cert.signature_nid = nid := by simpa [hc, hx] using h
      simp only [hx, hn, set_conf_ssl_for_ctx_loop_table, slotOfNid]
      cases hf : SlotTable.find? (fun p => p.1 == nid) with
      | none => simp only [Option.map_none']
      | some p =>
        by_cases hp : conf.populated p.2 = true
        · simp [hp]
        · simp [hp]

/-- A context bound to a certificate is not `NULL`. -/
theorem ctx_isSome_of_certificate (ssl : ngx_ssl_t) (nid : Int)
    (h : certificateSignatureAlgorithm ssl = some nid) : ssl.ctx.isSome = true := by
  unfold certificateSignatureAlgorithm at h
  cases hc : ssl.ctx with
  | none => simp [hc] at h
  | some c => rfl

theorem populated_setSlot (conf : srv_conf_t) (s t : Slot) (ssl : ngx_ssl_t)
    (h : ssl.ctx.isSome = true) :
    (conf.setSlot s ssl).populated t = true ↔ (t = s ∨ conf.populated t = true) := by
  unfold srv_conf_t.populated
  rw [slot_setSlot]
  by_cases e : t = s
  · simp [e, h]
  · simp [e]

/-- Without a certificate to read the function returns `NULL`. -/
theorem set_conf_ssl_for_ctx_st_no_certificate (conf : srv_conf_t) (ssl : ngx_ssl_t)
    (h : certificateSignatureAlgorithm ssl = none) :
    set_conf_ssl_for_ctx_st conf ssl = (none, conf) := by
  unfold certificateSignatureAlgorithm at h
  unfold set_conf_ssl_for_ctx_st
  cases hc : ssl.ctx with
  | none => rfl
  | some c =>
    cases hx : c.certificate with
    | none => simp only [hx]
    | some cert => simp [hc, hx] at h

/-- The Slot Table assigns one slot to each of its algorithms. -/
theorem slotOfNid_of_mem (nid : Int) (s : Slot) (h : (nid, s) ∈ SlotTable) :
    slotOfNid nid = some s := by
  simp only [SlotTable, List.mem_cons, List.mem_singleton, List.not_mem_nil, or_false,
    Prod.mk.injEq] at h
  rcases h with h | h | h | h | h | h | h | h <;>
    (obtain ⟨hnid, hslot⟩ := h; subst hnid hslot; rfl)

theorem mem_of_slotOfNid (nid : Int) (s : Slot) (h : slotOfNid nid = some s) :
    (nid, s) ∈ SlotTable := by
  unfold slotOfNid at h
  cases hf : SlotTable.find? (fun p => p.1 == nid) with
  | none => simp [hf] at h
  | some p =>
    have hm := List.mem_of_find?_eq_some hf
    have hp := List.find?_some hf
    have h1 : p.1 = nid := eq_of_beq hp
    have h2 : p.2 = s := by simpa [hf] using h
    rw [← h1, ← h2]
    exact hm

theorem slotOfNid_eq_none (nid : Int) (h : ∀ p ∈ SlotTable, p.1 ≠ nid) :
    slotOfNid nid = none := by
  unfold slotOfNid
  rw [Option.map_eq_none', List.find?_eq_none]
  intro p hp hb
  exact h p hp (eq_of_beq hb)

/-! ### The callback, case by case -/

/-- An extension is malformed or well-formed. -/
theorem sigAlgs_malformed_or_wf (ext : List uint8_t) :
    SigAlgsMalformed ext ∨ ∃ list, SigAlgsWellFormed ext list := by
  match ext with
  | [] => left; trivial
  | [_] => left; trivial
  | hi :: lo :: body =>
    by_cases h : hi.val * 256 + lo.val ≠ body.length ∨ body.length = 0
        ∨ body.length % 2 = 1
    · left; exact h
    · right
      refine ⟨body, hi, lo, rfl, ?_, ?_, ?_⟩
      · omega
      · intro hb; apply h; right; left; simp [hb]
      · omega

/-- The callback aborts, or falls back, or serves the slot its chain
chooses on a well-formed extension. -/
theorem select_cases (tbl : Nat → Option SSL_CIPHER) (conf : srv_conf_t)
    (ctx : ssl_early_callback_ctx) :
    select_certificate_cb tbl conf ctx = cb_result.parseError
    ∨ select_certificate_cb tbl conf ctx = fallbackOutcome conf ctx
    ∨ ∃ ext list s,
        sigAlgsConsulted conf
        ∧ SSL_early_callback_ctx_extension_get ctx TLSEXT_TYPE_signature_algorithms = some ext
        ∧ SigAlgsWellFormed ext list
        ∧ firstSatisfiedRule conf (hasEcdsaCipher tbl conf ctx) (SignatureAlgorithmSet list)
            = some s
        ∧ (cipher_suites_block tbl conf ctx (SignatureAlgorithmSet list)).isSome = true
        ∧ select_certificate_cb tbl conf ctx = cb_result.selected s := by
  by_cases hc : sigAlgsConsulted conf
  · cases hext : SSL_early_callback_ctx_extension_get ctx TLSEXT_TYPE_signature_algorithms with
    | none => right; left; exact select_of_absent tbl conf ctx hext
    | some ext =>
      rcases sigAlgs_malformed_or_wf ext with hmal | ⟨list, hwf⟩
      · left; exact select_of_malformed tbl conf ctx ext hc hext hmal
      · have hsel := select_of_wf tbl conf ctx ext list hc hext hwf
        cases hb : cipher_suites_block tbl conf ctx (SignatureAlgorithmSet list) with
        | none => left; rw [hsel, hb]
        | some has_ecdsa =>
          have hchain := select_chain_block tbl conf ctx _ has_ecdsa hb
          rw [hb] at hsel
          simp only [hchain] at hsel
          cases hf : firstSatisfiedRule conf (hasEcdsaCipher tbl conf ctx)
              (SignatureAlgorithmSet list) with
          | none => right; left; rw [hsel, hf]
          | some s =>
            right; right
            exact ⟨ext, list, s, hc, rfl, hwf, hf, by rw [hb]; rfl, by rw [hsel, hf]⟩
  · right; left; exact select_of_not_consulted tbl conf ctx hc

/-- A satisfied rule names a populated slot whose flag is set, and for an
ECDSA slot the cipher compatibility holds. -/
theorem firstSatisfiedRule_some (conf : srv_conf_t) (hasCipher : Bool) (f : sig_flags)
    (s : Slot) (h : firstSatisfiedRule conf hasCipher f = some s) :
    conf.populated s = true
    ∧ ((s = .EcdsaSha512 ∧ hasCipher = true ∧ f.has_sha512_ecdsa = true)
      ∨ (s = .EcdsaSha384 ∧ hasCipher = true ∧ f.has_sha384_ecdsa = true)
      ∨ (s = .EcdsaSha256 ∧ hasCipher = true ∧ f.has_sha256_ecdsa = true)
      ∨ (s = .RsaSha512 ∧ f.has_sha512_rsa = true)
      ∨ (s = .RsaSha384 ∧ f.has_sha384_rsa = true)
      ∨ (s = .RsaSha256 ∧ f.has_sha256_rsa = true)) := by
  unfold firstSatisfiedRule at h
  cases hf : (priorityRules conf hasCipher f).find? (fun r => r.2) with
  | none => simp [hf] at h
  | some r =>
    have hm := List.mem_of_find?_eq_some hf
    have hr : r.2 = true := List.find?_some hf
    have hs : r.1 = s := by simpa [hf] using h
    simp only [priorityRules, List.mem_cons, List.mem_singleton, List.not_mem_nil,
      or_false] at hm
    rcases hm with rfl | rfl | rfl | rfl | rfl | rfl <;>
      simp only [Bool.and_eq_true] at hr <;> subst hs <;> simp [hr]

/-- The fallback installs only RsaSha256 or RsaLegacy, and only when
populated. -/
theorem fallbackOutcome_installed (conf : srv_conf_t) (ctx : ssl_early_callback_ctx)
    (s : Slot) (h : (fallbackOutcome conf ctx).installed = some s) :
    conf.populated s = true ∧ (s = .RsaSha256 ∨ s = .RsaLegacy) := by
  unfold fallbackOutcome at h
  split_ifs at h with h1 h2
  · simp only [cb_result.selected, Option.some.injEq] at h
    subst h; exact ⟨h1.1, Or.inl rfl⟩
  · simp only [cb_result.selected, Option.some.injEq] at h
    subst h; exact ⟨h2, Or.inr rfl⟩
  · simp [cb_result.useDefault] at h

theorem extension_get_removeSigAlgs (ctx : ssl_early_callback_ctx) :
    SSL_early_callback_ctx_extension_get (removeSigAlgs ctx) TLSEXT_TYPE_signature_algorithms
      = none := by
  unfold SSL_early_callback_ctx_extension_get removeSigAlgs
  rw [Option.map_eq_none', List.find?_eq_none]
  intro e he
  have := (List.mem_filter.mp he).2
  simpa using this

theorem hasServerName_removeSigAlgs (ctx : ssl_early_callback_ctx) :
    hasServerName (removeSigAlgs ctx) = hasServerName ctx := by
  unfold hasServerName removeSigAlgs
  induction ctx.extensions with
  | nil => rfl
  | cons e rest ih =>
    by_cases h : e.1 = TLSEXT_TYPE_signature_algorithms
    · have h0 : (e.1 == TLSEXT_TYPE_server_name) = false := by
        rw [h]; decide
      simp only [List.filter_cons, h, bne_self_eq_false, Bool.false_eq_true, if_false,
        List.any_cons, h0, Bool.false_or]
      exact ih
    · have h1 : (e.1 != TLSEXT_TYPE_signature_algorithms) = true := by
        simpa using h
      simp only [List.filter_cons, h1, if_true, List.any_cons]
      rw [ih]

theorem fallbackOutcome_removeSigAlgs (conf : srv_conf_t) (ctx : ssl_early_callback_ctx) :
    fallbackOutcome conf (removeSigAlgs ctx) = fallbackOutcome conf ctx := by
  unfold fallbackOutcome
  rw [hasServerName_removeSigAlgs]

/-- Without its signature-algorithms extension a ClientHello gets the
fallback. -/
theorem select_removeSigAlgs (tbl : Nat → Option SSL_CIPHER) (conf : srv_conf_t)
    (ctx : ssl_early_callback_ctx) :
    select_certificate_cb tbl conf (removeSigAlgs ctx) = fallbackOutcome conf ctx := by
  rw [select_of_absent tbl conf _ (extension_get_removeSigAlgs ctx),
    fallbackOutcome_removeSigAlgs]

/-! ### The full scan -/

/-- The spec's full scan adds to `f` the flags of the pairs of the list. -/
theorem fullScan_eq_join : ∀ (list : List uint8_t) (f : sig_flags),
    fullScan list f = f.join (SignatureAlgorithmSet list)
  | [], f => by
    cases f
    simp [fullScan, SignatureAlgorithmSet, hasPair, sig_pairs, sig_flags.join]
  | [_], f => by
    cases f
    simp [fullScan, SignatureAlgorithmSet, hasPair, sig_pairs, sig_flags.join]
  | hash :: sign :: rest, f => by
    rw [fullScan, fullScan_eq_join rest]
    simp only [SignatureAlgorithmSet, hasPair_cons, sig_flags.join, Prod.mk.injEq,
      Bool.or_assoc]

theorem fullScan_init (list : List uint8_t) :
    fullScan list sig_flags.init = SignatureAlgorithmSet list := by
  rw [fullScan_eq_join, sig_flags.init_join]

/-- A pair is among the pairs of the list exactly when it stands at an even
offset. -/
theorem hasPair_iff_occurs : ∀ (list : List uint8_t) (a b : Nat),
    hasPair list a b = true ↔ occursAtEvenOffset list a b
  | [], a, b => by
    simp [hasPair, sig_pairs, occursAtEvenOffset]
  | [x], a, b => by
    simp only [hasPair, sig_pairs, List.not_mem_nil, decide_False, Bool.false_eq_true,
      false_iff, occursAtEvenOffset, not_exists]
    intro k h s h1
    have h2 := h1.2.1
    simp at h2
  | hash :: sign :: rest, a, b => by
    rw [hasPair_cons, Bool.or_eq_true, hasPair_iff_occurs rest a b]
    simp only [decide_eq_true_eq, Prod.mk.injEq, occursAtEvenOffset]
    constructor
    · rintro (⟨h1, h2⟩ | ⟨k, h, s, e1, e2, e3, e4⟩)
      · exact ⟨0, hash, sign, rfl, rfl, h1, h2⟩
      · refine ⟨k + 1, h, s, ?_, ?_, e3, e4⟩
        · have : 2 * (k + 1) = 2 * k + 1 + 1 := by ring
          rw [this]; simpa using e1
        · have : 2 * (k + 1) + 1 = 2 * k + 1 + 1 + 1 := by ring
          rw [this]; simpa using e2
    · rintro ⟨k, h, s, e1, e2, e3, e4⟩
      cases k with
      | zero =>
        left
        simp only [Nat.mul_zero, List.get?_cons_zero, Option.some.injEq] at e1
        simp only [Nat.mul_zero, Nat.zero_add, List.get?_cons_succ, List.get?_cons_zero,
          Option.some.injEq] at e2
        subst e1 e2
        exact ⟨e3, e4⟩
      | succ k =>
        right
        refine ⟨k, h, s, ?_, ?_, e3, e4⟩
        · have : 2 * (k + 1) = 2 * k + 1 + 1 := by ring
          rw [this] at e1; simpa using e1
        · have : 2 * (k + 1) + 1 = 2 * k + 1 + 1 + 1 := by ring
          rw [this] at e2; simpa using e2

/-! ### The classification pass -/

/-- The loop over the additional entries, when every entry loads: it runs
to its end exactly when every algorithm has a slot that is free in `conf`
and no two algorithms share a slot; then the populated slots are those of
`conf` and those of the algorithms. -/
theorem merge_cert_loop_spec (load : Nat → String → String → Option ngx_ssl_t) :
    ∀ (entries : List (String × String)) (nids : List Int) (i : Nat) (conf : srv_conf_t),
      entries.length = nids.length →
      (∀ j nid, nids.get? j = some nid →
        ∃ e new_ssl, entries.get? j = some e ∧ load (i + j) e.1 e.2 = some new_ssl
          ∧ certificateSignatureAlgorithm new_ssl = some nid) →
      ((merge_cert_loop load i entries conf).1 = true ↔
        (∀ nid ∈ nids, ∃ s, slotOfNid nid = some s ∧ conf.populated s = false)
          ∧ (nids.map slotOfNid).Nodup)
      ∧ ((merge_cert_loop load i entries conf).1 = true →
        ∀ s, (merge_cert_loop load i entries conf).2.populated s = true ↔
          (conf.populated s = true ∨ some s ∈ nids.map slotOfNid))
  | [], [], i, conf, _, _ => by
    simp [merge_cert_loop]
  | [], n :: ns, _, _, hne, _ => absurd hne (by simp)
  | e :: rest, [], _, _, hne, _ => absurd hne (by simp)
  | (cert, key) :: rest, n :: ns, i, conf, hlen, hload => by
    obtain ⟨e, new_ssl, he, hl, hn⟩ := hload 0 n rfl
    simp only [List.get?_cons_zero, Option.some.injEq] at he
    subst he
    simp only [Nat.add_zero] at hl
    have hlen2 : rest.length = ns.length := by simpa using hlen
    have hload2 : ∀ j nid, ns.get? j = some nid →
        ∃ e new_ssl, rest.get? j = some e ∧ load (i + 1 + j) e.1 e.2 = some new_ssl
          ∧ certificateSignatureAlgorithm new_ssl = some nid := by
      intro j nid hj
      obtain ⟨e, s2, h1, h2, h3⟩ := hload (j + 1) nid (by simpa using hj)
      refine ⟨e, s2, by simpa using h1, ?_, h3⟩
      have : i + 1 + j = i + (j + 1) := by omega
      rw [this]; exact h2
    have hctx := ctx_isSome_of_certificate new_ssl n hn
    rw [merge_cert_loop]
    simp only [hl, set_conf_ssl_for_ctx_st_spec conf new_ssl n hn]
    cases hs : slotOfNid n with
    | none =>
      simp only [Bool.false_eq_true, false_iff, false_imp_iff, and_true]
      intro hall
      obtain ⟨s, h1, -⟩ := hall.1 n (List.mem_cons_self _ _)
      rw [hs] at h1; simp at h1
    | some s =>
      by_cases hp : conf.populated s = true
      · simp only [hp, if_true, Bool.false_eq_true, false_iff, false_imp_iff, and_true]
        intro hall
        obtain ⟨t, h1, h2⟩ := hall.1 n (List.mem_cons_self _ _)
        rw [hs] at h1
        simp only [Option.some.injEq] at h1
        subst h1
        rw [hp] at h2; simp at h2
      · simp only [hp, Bool.false_eq_true, if_false]
        have ih := merge_cert_loop_spec load rest ns (i + 1) (conf.setSlot s new_ssl)
          hlen2 hload2
        have hpop : ∀ t, (conf.setSlot s new_ssl).populated t = false ↔
            (t ≠ s ∧ conf.populated t = false) := by
          intro t
          have := populated_setSlot conf s t new_ssl hctx
          rw [← Bool.not_eq_true, this, ← Bool.not_eq_true]
          tauto
        have hpf : conf.populated s = false := by simpa using hp
        constructor
        · rw [ih.1]
          simp only [List.map_cons, hs, List.nodup_cons, List.mem_cons, forall_eq_or_imp,
            List.mem_map]
          constructor
          · rintro ⟨hA, hB⟩
            refine ⟨⟨⟨s, rfl, hpf⟩, fun nid hnid => ?_⟩, ?_, hB⟩
            · obtain ⟨t, h1, h2⟩ := hA nid hnid
              exact ⟨t, h1, ((hpop t).mp h2).2⟩
            · rintro ⟨nid, hnid, heq⟩
              obtain ⟨t, h1, h2⟩ := hA nid hnid
              rw [h1] at heq
              simp only [Option.some.injEq] at heq
              exact ((hpop t).mp h2).1 heq
          · rintro ⟨⟨-, hA⟩, hnot, hB⟩
            refine ⟨fun nid hnid => ?_, hB⟩
            obtain ⟨t, h1, h2⟩ := hA nid hnid
            refine ⟨t, h1, (hpop t).mpr ⟨?_, h2⟩⟩
            rintro rfl
            exact hnot ⟨nid, hnid, h1⟩
        · intro hok t
          rw [ih.2 hok t, populated_setSlot conf s t new_ssl hctx]
          simp only [List.map_cons, hs, List.mem_cons, Option.some.injEq]
          tauto

/-- The entries the loop visits are the certificates and keys from index 1
on. -/
theorem get?_zip_drop_one (certs keys : List String) (j : Nat) (cert key : String)
    (hc : certs.get? (j + 1) = some cert) (hk : keys.get? (j + 1) = some key) :
    ((certs.zip keys).drop 1).get? j = some (cert, key) := by
  rw [List.get?_eq_getElem?, List.getElem?_drop, List.getElem?_zip_eq_some]
  have : 1 + j = j + 1 := by omega
  rw [this]
  simp only [List.get?_eq_getElem?] at hc hk
  exact ⟨hc, hk⟩

/-- The seven slots are listed once each. -/
theorem Slot.all_nodup : Slot.all.Nodup := by decide

theorem Slot.mem_all (s : Slot) : s ∈ Slot.all := by
  cases s <;> decide

/-- A bundle whose populated slots are those of a duplicate-free list has
as many populated slots as the list has entries. -/
theorem populatedSlots_length (conf : srv_conf_t) (slots : List Slot) (hd : slots.Nodup)
    (h : ∀ s, conf.populated s = true ↔ s ∈ slots) :
    conf.populatedSlots.length = slots.length := by
  apply List.Perm.length_eq
  apply (List.perm_ext_iff_of_nodup (Slot.all_nodup.filter _) hd).mpr
  intro s
  rw [List.mem_filter, h s]
  exact ⟨fun hh => hh.2, fun hh => ⟨Slot.mem_all s, hh⟩⟩

theorem map_some_filterMap {α β : Type} (f : α → Option β) :
    ∀ l : List α, (∀ x ∈ l, f x ≠ none) → (l.filterMap f).map some = l.map f
  | [], _ => rfl
  | x :: xs, h => by
    have hx := h x (List.mem_cons_self _ _)
    have ih := map_some_filterMap f xs (fun y hy => h y (List.mem_cons_of_mem _ hy))
    cases hfx : f x with
    | none => exact absurd hfx hx
    | some b => simp [List.filterMap_cons, hfx, ih]

/-- The classification pass on a bundle without populated slots, when every
additional entry loads: it succeeds exactly on classifiable algorithms, and
then the populated slots are the slots of the algorithms, one each. -/
theorem merge_classify_spec (load : Nat → String → String → Option ngx_ssl_t)
    (ssl : ngx_http_ssl_srv_conf_t) (certs keys : List String) (conf : srv_conf_t)
    (nid0 : Int) (nids : List Int)
    (hfresh : ∀ s, conf.populated s = false)
    (hhost : certificateSignatureAlgorithm ssl.ssl = some nid0)
    (hclen : certs.length = nids.length + 1) (hklen : keys.length = nids.length + 1)
    (hload : ∀ j nid, nids.get? j = some nid →
      ∃ cert key new_ssl, certs.get? (j + 1) = some cert ∧ keys.get? (j + 1) = some key
        ∧ load (j + 1) cert key = some new_ssl
        ∧ certificateSignatureAlgorithm new_ssl = some nid) :
    ((merge_classify load ssl certs keys conf).1 = true ↔ Classifiable (nid0 :: nids))
    ∧ ((merge_classify load ssl certs keys conf).1 = true →
      ∀ s, (merge_classify load ssl certs keys conf).2.populated s = true ↔
        some s ∈ (nid0 :: nids).map slotOfNid) := by
  have hctx := ctx_isSome_of_certificate ssl.ssl nid0 hhost
  unfold merge_classify Classifiable
  rw [set_conf_ssl_for_ctx_st_spec conf ssl.ssl nid0 hhost]
  cases hs : slotOfNid nid0 with
  | none =>
    simp only [Bool.false_eq_true, false_iff, false_imp_iff, and_true]
    intro hall
    exact hall.1 nid0 (List.mem_cons_self _ _) hs
  | some s0 =>
    simp only [hfresh s0, Bool.false_eq_true, if_false]
    have hlen : ((certs.zip keys).drop 1).length = nids.length := by
      simp only [List.length_drop, List.length_zip, hclen, hklen]
      omega
    have hload2 : ∀ j nid, nids.get? j = some nid →
        ∃ e new_ssl, ((certs.zip keys).drop 1).get? j = some e
          ∧ load (1 + j) e.1 e.2 = some new_ssl
          ∧ certificateSignatureAlgorithm new_ssl = some nid := by
      intro j nid hj
      obtain ⟨cert, key, new_ssl, h1, h2, h3, h4⟩ := hload j nid hj
      refine ⟨(cert, key), new_ssl, get?_zip_drop_one certs keys j cert key h1 h2, ?_, h4⟩
      have : 1 + j = j + 1 := by omega
      rw [this]; exact h3
    have ih := merge_cert_loop_spec load ((certs.zip keys).drop 1) nids 1
      (conf.setSlot s0 ssl.ssl) hlen hload2
    have hpop : ∀ t, (conf.setSlot s0 ssl.ssl).populated t = true ↔ t = s0 := by
      intro t
      rw [populated_setSlot conf s0 t ssl.ssl hctx, hfresh t]
      simp
    have hpopf : ∀ t, (conf.setSlot s0 ssl.ssl).populated t = false ↔ t ≠ s0 := by
      intro t
      rw [← Bool.not_eq_true, hpop t]
    constructor
    · rw [ih.1]
      simp only [List.map_cons, hs, List.nodup_cons, List.mem_cons, forall_eq_or_imp,
        List.mem_map, hpopf]
      constructor
      · rintro ⟨hA, hB⟩
        refine ⟨⟨by simp, fun nid hnid => ?_⟩, ?_, hB⟩
        · obtain ⟨t, h1, -⟩ := hA nid hnid
          rw [h1]; simp
        · rintro ⟨nid, hnid, heq⟩
          obtain ⟨t, h1, h2⟩ := hA nid hnid
          rw [h1] at heq
          simp only [Option.some.injEq] at heq
          exact h2 heq
      · rintro ⟨⟨-, hA⟩, hnot, hB⟩
        refine ⟨fun nid hnid => ?_, hB⟩
        cases ht : slotOfNid nid with
        | none => exact absurd ht (hA nid hnid)
        | some t =>
          refine ⟨t, rfl, ?_⟩
          rintro rfl
          exact hnot ⟨nid, hnid, ht⟩
    · intro hok t
      rw [ih.2 hok t, hpop t]
      simp only [List.map_cons, hs, List.mem_cons, Option.some.injEq]

/-- Classifiable algorithms have as many slots as there are algorithms. -/
theorem Classifiable.slots (nids : List Int) (h : Classifiable nids) :
    ∃ slots : List Slot, slots.map some = nids.map slotOfNid ∧ slots.Nodup
      ∧ slots.length = nids.length := by
  refine ⟨nids.filterMap slotOfNid, map_some_filterMap slotOfNid nids h.1, ?_, ?_⟩
  · have := h.2
    rw [← map_some_filterMap slotOfNid nids h.1] at this
    exact List.Nodup.of_map _ this
  · have := congrArg List.length (map_some_filterMap slotOfNid nids h.1)
    simpa using this

/-! ### merge_srv_conf and the ECDSA cipher set -/

theorem ssl_cipher_ptr_id_cmp_le (a b : SSL_CIPHER) :
    ssl_cipher_ptr_id_cmp a b ≤ 0 ↔ a.id ≤ b.id := by
  unfold ssl_cipher_ptr_id_cmp
  split_ifs <;> simp <;> omega

theorem ssl_cipher_ptr_id_cmp_eq (a b : SSL_CIPHER) :
    ssl_cipher_ptr_id_cmp a b = 0 ↔ a.id = b.id := by
  unfold ssl_cipher_ptr_id_cmp
  split_ifs <;> simp <;> omega

theorem ssl_cipher_ptr_id_cmp_lt (a b : SSL_CIPHER) :
    ssl_cipher_ptr_id_cmp a b < 0 ↔ a.id < b.id := by
  unfold ssl_cipher_ptr_id_cmp
  split_ifs <;> simp <;> omega

instance : IsTotal SSL_CIPHER cipher_le :=
  ⟨fun a b => by
    unfold cipher_le
    rw [ssl_cipher_ptr_id_cmp_le, ssl_cipher_ptr_id_cmp_le]
    omega⟩

instance : IsTrans SSL_CIPHER cipher_le :=
  ⟨fun a b c => by
    unfold cipher_le
    rw [ssl_cipher_ptr_id_cmp_le, ssl_cipher_ptr_id_cmp_le, ssl_cipher_ptr_id_cmp_le]
    omega⟩

/-- The sorted stack is a rearrangement of the stack. -/
theorem sk_SSL_CIPHER_sort_perm (sk : List SSL_CIPHER) :
    (sk_SSL_CIPHER_sort sk).Perm sk :=
  List.perm_insertionSort cipher_le sk

/-- The sorted stack is in non-decreasing order of identifier. -/
theorem sk_SSL_CIPHER_sort_sorted (sk : List SSL_CIPHER) :
    (sk_SSL_CIPHER_sort sk).Pairwise (fun a b => a.id ≤ b.id) := by
  have h : (sk_SSL_CIPHER_sort sk).Pairwise cipher_le := List.sorted_insertionSort cipher_le sk
  exact h.imp (fun {a b} hab => (ssl_cipher_ptr_id_cmp_le a b).mp hab)

/-- The linear search finds a cipher exactly when the stack holds one with
its identifier. -/
theorem sk_SSL_CIPHER_find_iff (sk : List SSL_CIPHER) (p : SSL_CIPHER) :
    sk_SSL_CIPHER_find sk p = true ↔ ∃ c ∈ sk, c.id = p.id := by
  unfold sk_SSL_CIPHER_find
  rw [List.any_eq_true]
  constructor
  · rintro ⟨c, hc, h⟩
    exact ⟨c, hc, (ssl_cipher_ptr_id_cmp_eq c p).mp (by simpa using h)⟩
  · rintro ⟨c, hc, h⟩
    exact ⟨c, hc, by simpa using (ssl_cipher_ptr_id_cmp_eq c p).mpr h⟩

/-- On a stack in non-decreasing order of identifier, the binary search with
enough fuel finds a cipher exactly when the stack holds one with its
identifier. -/
theorem sk_bsearch_iff (p : SSL_CIPHER) :
    ∀ (fuel : Nat) (sk : List SSL_CIPHER), sk.length ≤ fuel →
      sk.Pairwise (fun a b => a.id ≤ b.id) →
      (sk_bsearch p fuel sk = true ↔ ∃ c ∈ sk, c.id = p.id)
  | 0, sk, hlen, _ => by
    have : sk = [] := List.length_eq_zero.mp (Nat.le_zero.mp hlen)
    subst this
    simp [sk_bsearch]
  | fuel + 1, sk, hlen, hsorted => by
    rw [sk_bsearch]
    cases hget : sk.get? (sk.length / 2) with
    | none =>
      have h0 : sk.length ≤ sk.length / 2 := by
        rw [List.get?_eq_getElem?] at hget
        exact List.getElem?_eq_none_iff.mp hget
      have : sk = [] := List.length_eq_zero.mp (by omega)
      subst this
      simp
    | some c =>
      rw [List.get?_eq_getElem?] at hget
      have hm : sk.length / 2 < sk.length := (List.getElem?_eq_some_iff.mp hget).1
      have hc : sk[sk.length / 2] = c := (List.getElem?_eq_some_iff.mp hget).2
      have hsplit : sk = sk.take (sk.length / 2) ++ c :: sk.drop (sk.length / 2 + 1) := by
        rw [← hc, ← List.drop_eq_getElem_cons hm, List.take_append_drop]
      have hs2 := hsorted
      rw [hsplit, List.pairwise_append, List.pairwise_cons] at hs2
      obtain ⟨hl, ⟨hcr, hr⟩, hlr⟩ := hs2
      have hmem : ∀ x, x ∈ sk ↔
          (x ∈ sk.take (sk.length / 2) ∨ x = c ∨ x ∈ sk.drop (sk.length / 2 + 1)) := by
        intro x
        conv_lhs => rw [hsplit]
        simp only [List.mem_append, List.mem_cons]
      simp only []
      by_cases h0 : ssl_cipher_ptr_id_cmp p c = 0
      · simp only [h0, if_true, true_iff]
        exact ⟨c, (hmem c).mpr (Or.inr (Or.inl rfl)),
          ((ssl_cipher_ptr_id_cmp_eq p c).mp h0).symm⟩
      · have hne : p.id ≠ c.id := fun h => h0 ((ssl_cipher_ptr_id_cmp_eq p c).mpr h)
        by_cases h1 : ssl_cipher_ptr_id_cmp p c < 0
        · have hlt : p.id < c.id := (ssl_cipher_ptr_id_cmp_lt p c).mp h1
          simp only [h0, h1, if_false, if_true]
          rw [sk_bsearch_iff p fuel _ (by rw [List.length_take]; omega) hl]
          constructor
          · rintro ⟨x, hx, hxp⟩
            exact ⟨x, (hmem x).mpr (Or.inl hx), hxp⟩
          · rintro ⟨x, hx, hxp⟩
            rcases (hmem x).mp hx with h | h | h
            · exact ⟨x, h, hxp⟩
            · subst h; omega
            · have := hcr x h; omega
        · have hgt : c.id < p.id := by
            have := (ssl_cipher_ptr_id_cmp_lt p c).not.mp h1
            omega
          simp only [h0, h1, if_false]
          rw [sk_bsearch_iff p fuel _ (by rw [List.length_drop]; omega) hr]
          constructor
          · rintro ⟨x, hx, hxp⟩
            exact ⟨x, (hmem x).mpr (Or.inr (Or.inr hx)), hxp⟩
          · rintro ⟨x, hx, hxp⟩
            rcases (hmem x).mp hx with h | h | h
            · have := hlr x h c (List.mem_cons_self _ _); omega
            · subst h; omega
            · exact ⟨x, h, hxp⟩

/-- The push loop, when it runs to its end, has appended the ECDSA ciphers
of the list, in order. -/
theorem merge_push_loop_ok (sk_push_ok : Nat → Bool) :
    ∀ (l : List SSL_CIPHER) (i : Nat) (sk sk2 : List SSL_CIPHER),
      merge_push_loop sk_push_ok i l sk = (true, sk2) →
      sk2 = sk ++ l.filter (fun c => c.is_ECDSA)
  | [], i, sk, sk2, h => by
    simp only [merge_push_loop, Prod.mk.injEq, true_and] at h
    simp [h]
  | c :: rest, i, sk, sk2, h => by
    rw [merge_push_loop] at h
    by_cases hc : c.is_ECDSA = true
    · by_cases hp : sk_push_ok i = true
      · simp only [hc, hp, if_true] at h
        rw [merge_push_loop_ok sk_push_ok rest (i + 1) _ sk2 h]
        simp [List.filter_cons, hc]
      · simp [hc, hp] at h
    · simp only [hc, Bool.false_eq_true, if_false] at h
      rw [merge_push_loop_ok sk_push_ok rest (i + 1) _ sk2 h]
      simp [List.filter_cons, hc]

/-- The configuration `merge_srv_conf` works on after the two
`ngx_conf_merge_ptr_value`. -/
theorem merge_srv_conf_unset (host : merge_host) (g : Int) (prev conf : srv_conf_t)
    (hc : ngx_conf_merge_ptr_value conf.certificate prev.certificate = none)
    (hk : ngx_conf_merge_ptr_value conf.certificate_key prev.certificate_key = none) :
    merge_srv_conf host g prev conf =
      (.NGX_CONF_OK,
        ⟨{ conf with certificate := none, certificate_key := none }, g, false⟩) := by
  unfold merge_srv_conf
  simp only [hc, hk]

theorem merge_srv_conf_mismatch (host : merge_host) (g : Int) (prev conf : srv_conf_t)
    (certs keys : Option (List String))
    (hc : ngx_conf_merge_ptr_value conf.certificate prev.certificate = certs)
    (hk : ngx_conf_merge_ptr_value conf.certificate_key prev.certificate_key = keys)
    (hm : (certs = none ∧ keys ≠ none) ∨ (certs ≠ none ∧ keys = none)
      ∨ ∃ cs ks, certs = some cs ∧ keys = some ks ∧ cs.length ≠ ks.length) :
    merge_srv_conf host g prev conf =
      (.NGX_CONF_ERROR,
        ⟨{ conf with certificate := certs, certificate_key := keys }, g, false⟩) := by
  unfold merge_srv_conf
  subst hc hk
  rcases hm with ⟨h1, h2⟩ | ⟨h1, h2⟩ | ⟨cs, ks, h1, h2, h3⟩
  · cases hk : ngx_conf_merge_ptr_value conf.certificate_key prev.certificate_key with
    | none => exact absurd hk h2
    | some ks => simp only [h1]
  · cases hc : ngx_conf_merge_ptr_value conf.certificate prev.certificate with
    | none => exact absurd hc h1
    | some cs => simp only [h2]
  · simp only [h1, h2, ne_eq, h3, not_false_eq_true, if_true]

/-- With both arrays set, of equal length, and a host context, the function
is the classification pass, the construction of the cipher set and the
registration of the callback. -/
theorem merge_srv_conf_configured (host : merge_host) (g : Int) (prev conf : srv_conf_t)
    (certs keys : List String) (ssl : ngx_http_ssl_srv_conf_t)
    (hc : ngx_conf_merge_ptr_value conf.certificate prev.certificate = some certs)
    (hk : ngx_conf_merge_ptr_value conf.certificate_key prev.certificate_key = some keys)
    (hlen : certs.length = keys.length)
    (hssl : host.ssl = some ssl) (hctx : ssl.ssl.ctx.isSome = true) :
    merge_srv_conf host g prev conf =
      match merge_classify host.load ssl certs keys
          { conf with certificate := some certs, certificate_key := some keys } with
      | (false, conf1) => (.NGX_CONF_ERROR, ⟨conf1, g, false⟩)
      | (true, conf1) =>
        if !host.sk_new_ok then
          (.NGX_CONF_ERROR, ⟨{ conf1 with ecdsa_ciphers := [] }, g, false⟩)
        else
          match merge_push_loop host.sk_push_ok 0 ssl.ciphers [] with
          | (false, sk) =>
            (.NGX_CONF_ERROR, ⟨{ conf1 with ecdsa_ciphers := sk }, g, false⟩)
          | (true, sk) =>
            if (if g = -1 then host.ex_new_index else g) = -1 then
              (.NGX_CONF_ERROR,
                ⟨{ conf1 with ecdsa_ciphers := sk_SSL_CIPHER_sort sk },
                  if g = -1 then host.ex_new_index else g, false⟩)
            else if !host.set_ex_data_ok then
              (.NGX_CONF_ERROR,
                ⟨{ conf1 with ecdsa_ciphers := sk_SSL_CIPHER_sort sk },
                  if g = -1 then host.ex_new_index else g, false⟩)
            else
              (.NGX_CONF_OK,
                ⟨{ conf1 with ecdsa_ciphers := sk_SSL_CIPHER_sort sk },
                  if g = -1 then host.ex_new_index else g, true⟩) := by
  have hn : ssl.ssl.ctx.isNone = false := by
    cases h : ssl.ssl.ctx with
    | none => rw [h] at hctx; simp at hctx
    | some c => rfl
  unfold merge_srv_conf
  simp only [hc, hk, hlen, ne_eq, not_true_eq_false, if_false, hssl, hn, Bool.false_eq_true]

/-- When the function has registered the callback, it has come through the
classification pass and the push loop, and left the sorted stack. -/
theorem merge_srv_conf_done (host : merge_host) (g : Int) (prev conf : srv_conf_t)
    (h : (merge_srv_conf host g prev conf).2.callback_set = true) :
    ∃ certs keys ssl conf1 sk,
      ngx_conf_merge_ptr_value conf.certificate prev.certificate = some certs
      ∧ ngx_conf_merge_ptr_value conf.certificate_key prev.certificate_key = some keys
      ∧ certs.length = keys.length
      ∧ host.ssl = some ssl
      ∧ merge_classify host.load ssl certs keys
          { conf with certificate := some certs, certificate_key := some keys } = (true, conf1)
      ∧ merge_push_loop host.sk_push_ok 0 ssl.ciphers [] = (true, sk)
      ∧ merge_srv_conf host g prev conf =
          (.NGX_CONF_OK,
            ⟨{ conf1 with ecdsa_ciphers := sk_SSL_CIPHER_sort sk },
              if g = -1 then host.ex_new_index else g, true⟩) := by
  cases hc : ngx_conf_merge_ptr_value conf.certificate prev.certificate with
  | none =>
    cases hk : ngx_conf_merge_ptr_value conf.certificate_key prev.certificate_key with
    | none => rw [merge_srv_conf_unset host g prev conf hc hk] at h; simp at h
    | some ks =>
      rw [merge_srv_conf_mismatch host g prev conf _ _ hc hk (Or.inl ⟨rfl, by simp⟩)] at h
      simp at h
  | some cs =>
    cases hk : ngx_conf_merge_ptr_value conf.certificate_key prev.certificate_key with
    | none =>
      rw [merge_srv_conf_mismatch host g prev conf _ _ hc hk
        (Or.inr (Or.inl ⟨by simp, rfl⟩))] at h
      simp at h
    | some ks =>
      by_cases hlen : cs.length = ks.length
      · cases hssl : host.ssl with
        | none =>
          unfold merge_srv_conf at h
          simp [hc, hk, hlen, hssl] at h
        | some ssl =>
          by_cases hctx : ssl.ssl.ctx.isSome = true
          · have heq := merge_srv_conf_configured host g prev conf cs ks ssl hc hk hlen hssl hctx
            rcases hcl : merge_classify host.load ssl cs ks
                { conf with certificate := some cs, certificate_key := some ks }
              with ⟨b, conf1⟩
            rw [hcl] at heq
            cases b with
            | false => rw [heq] at h; simp at h
            | true =>
              simp only [] at heq
              by_cases hnew : host.sk_new_ok = true
              · simp only [hnew, Bool.not_true, Bool.false_eq_true, if_false] at heq
                rcases hpl : merge_push_loop host.sk_push_ok 0 ssl.ciphers [] with ⟨b2, sk⟩
                rw [hpl] at heq
                cases b2 with
                | false => rw [heq] at h; simp at h
                | true =>
                  simp only [] at heq
                  by_cases h1 : (if g = -1 then host.ex_new_index else g) = -1
                  · rw [if_pos h1] at heq
                    rw [heq] at h; simp at h
                  · rw [if_neg h1] at heq
                    by_cases h2 : host.set_ex_data_ok = true
                    · simp only [h2, Bool.not_true, Bool.false_eq_true, if_false] at heq
                      exact ⟨cs, ks, ssl, conf1, sk, rfl, rfl, hlen, rfl, hcl, hpl, heq⟩
                    · simp only [h2, Bool.not_false, if_true] at heq
                      rw [heq] at h; simp at h
              · simp only [hnew, Bool.not_false, if_true] at heq
                rw [heq] at h; simp at h
          · have hn : ssl.ssl.ctx.isNone = true := by
              cases hx : ssl.ssl.ctx with
              | none => rfl
              | some c => rw [hx] at hctx; simp at hctx
            unfold merge_srv_conf at h
            simp [hc, hk, hlen, hssl, hn] at h
      · rw [merge_srv_conf_mismatch host g prev conf _ _ hc hk
          (Or.inr (Or.inr ⟨cs, ks, rfl, rfl, hlen⟩))] at h
        simp at h

/-! ## The claims -/

/-- C1: when the signature-algorithms extension is consulted (`canEcdsa`, or
RsaSha256/384/512 populated, and the extension present) and well-formed,
and the callback does not abort, it returns the slot of the first satisfied
rule in the order EcdsaSha512, EcdsaSha384, EcdsaSha256, RsaSha512,
RsaSha384, RsaSha256. In particular, with every slot populated, a non-empty
ECDSA cipher set, a compatible offered suite and all six tracked pairs in
the list (in whatever order), the result is EcdsaSha512. -/
theorem select_first_satisfied_rule (tbl : Nat → Option SSL_CIPHER) (conf : srv_conf_t)
    (ctx : ssl_early_callback_ctx) (ext list : List uint8_t)
    (hc : sigAlgsConsulted conf)
    (hext : SSL_early_callback_ctx_extension_get ctx TLSEXT_TYPE_signature_algorithms
      = some ext)
    (hwf : SigAlgsWellFormed ext list) :
    (select_certificate_cb tbl conf ctx ≠ cb_result.parseError →
      ∀ s, firstSatisfiedRule conf (hasEcdsaCipher tbl conf ctx) (SignatureAlgorithmSet list)
          = some s →
        select_certificate_cb tbl conf ctx = cb_result.selected s)
    ∧ ((∀ s, conf.populated s = true) → conf.ecdsa_ciphers ≠ [] →
        hasEcdsaCipher tbl conf ctx = true →
        hasPair list TLSEXT_hash_sha256 TLSEXT_signature_rsa = true →
        hasPair list TLSEXT_hash_sha384 TLSEXT_signature_rsa = true →
        hasPair list TLSEXT_hash_sha512 TLSEXT_signature_rsa = true →
        hasPair list TLSEXT_hash_sha256 TLSEXT_signature_ecdsa = true →
        hasPair list TLSEXT_hash_sha384 TLSEXT_signature_ecdsa = true →
        hasPair list TLSEXT_hash_sha512 TLSEXT_signature_ecdsa = true →
        select_certificate_cb tbl conf ctx = cb_result.selected .EcdsaSha512) := by
  have hsel := select_of_wf tbl conf ctx ext list hc hext hwf
  constructor
  · intro hparse s hs
    rw [hsel] at hparse ⊢
    cases hb : cipher_suites_block tbl conf ctx (SignatureAlgorithmSet list) with
    | none => simp [hb] at hparse
    | some has_ecdsa =>
      simp only [select_chain_block tbl conf ctx _ has_ecdsa hb, hs]
  · intro hpop hset hcipher _ _ _ _ _ h6
    have hcan : can_ecdsa conf = true :=
      (can_ecdsa_iff conf).mpr ⟨Or.inl (hpop _), hset⟩
    have h512 : (SignatureAlgorithmSet list).has_sha512_ecdsa = true := h6
    have hb : cipher_suites_block tbl conf ctx (SignatureAlgorithmSet list) = some true := by
      rw [cipher_suites_block_eq]
      simp [hcan, h512, hcipher]
    have hp := hpop .EcdsaSha512
    simp only [srv_conf_t.populated, srv_conf_t.slot] at hp
    rw [hsel]
    simp [hb, select_chain, hp, h512]

/-- C1, at a bundle with every slot populated and a ClientHello with the six
pairs in scrambled order. -/
theorem select_first_satisfied_rule_witness :
    sigAlgsConsulted bundleAll
    ∧ SSL_early_callback_ctx_extension_get helloAllSix TLSEXT_TYPE_signature_algorithms
        = some (0 :: 14 :: sixPairs)
    ∧ SigAlgsWellFormed (0 :: 14 :: sixPairs) sixPairs
    ∧ select_certificate_cb exampleCiphers bundleAll helloAllSix
        = cb_result.selected .EcdsaSha512 :=
  have hwf : SigAlgsWellFormed (0 :: 14 :: sixPairs) sixPairs :=
    ⟨0, 14, rfl, by decide, by decide, by decide⟩
  ⟨by decide, by decide, hwf,
    (select_first_satisfied_rule exampleCiphers bundleAll helloAllSix (0 :: 14 :: sixPairs)
      sixPairs (by decide) (by decide) hwf).2
      (fun s => by cases s <;> rfl) (by decide) (by decide) (by decide) (by decide)
      (by decide) (by decide) (by decide) (by decide)⟩

/-- C2, as stated, fails: on a bundle with only RsaLegacy populated the
callback never looks at the extension, so a ClientHello whose
signature-algorithms extension declares 4 bytes and holds 1 is served from
RsaLegacy instead of being aborted. -/
theorem malformed_sig_algs_never_slot_counterexample :
    SSL_early_callback_ctx_extension_get helloPastEnd TLSEXT_TYPE_signature_algorithms
        = some [0, 4, 4]
    ∧ SigAlgsMalformed [0, 4, 4]
    ∧ select_certificate_cb exampleCiphers bundleLegacyOnly helloPastEnd
        = cb_result.selected .RsaLegacy
    ∧ select_certificate_cb exampleCiphers bundleLegacyOnly helloPastEnd
        ≠ cb_result.parseError :=
  ⟨by decide, Or.inl (by decide), by decide, by decide⟩

/-- C2, amended: for a ClientHello with a malformed signature-algorithms
extension, on a bundle with `canEcdsa` or one of RsaSha256/384/512 populated
the callback returns the parse-error outcome, never a slot and never
UseDefault; on any other bundle the extension is not read and the outcome
is that of the fallback step. -/
theorem malformed_sig_algs_abort (tbl : Nat → Option SSL_CIPHER) (conf : srv_conf_t)
    (ctx : ssl_early_callback_ctx) (ext : List uint8_t)
    (hext : SSL_early_callback_ctx_extension_get ctx TLSEXT_TYPE_signature_algorithms
      = some ext)
    (hmal : SigAlgsMalformed ext) :
    (sigAlgsConsulted conf →
      select_certificate_cb tbl conf ctx = cb_result.parseError
      ∧ (∀ s, select_certificate_cb tbl conf ctx ≠ cb_result.selected s)
      ∧ select_certificate_cb tbl conf ctx ≠ cb_result.useDefault)
    ∧ (¬ sigAlgsConsulted conf →
      select_certificate_cb tbl conf ctx = fallbackOutcome conf ctx) := by
  constructor
  · intro hc
    rw [select_of_malformed tbl conf ctx ext hc hext hmal]
    refine ⟨rfl, fun s => ?_, ?_⟩ <;>
      simp [cb_result.parseError, cb_result.selected, cb_result.useDefault]
  · intro hc
    exact select_of_not_consulted tbl conf ctx hc

/-- C2 amended, at a bundle with every slot populated and an extension whose
length points past its end. -/
theorem malformed_sig_algs_abort_witness :
    SSL_early_callback_ctx_extension_get helloPastEnd TLSEXT_TYPE_signature_algorithms
        = some [0, 4, 4]
    ∧ SigAlgsMalformed [0, 4, 4]
    ∧ sigAlgsConsulted bundleAll
    ∧ select_certificate_cb exampleCiphers bundleAll helloPastEnd = cb_result.parseError :=
  ⟨by decide, Or.inl (by decide), by decide,
    ((malformed_sig_algs_abort exampleCiphers bundleAll helloPastEnd [0, 4, 4] (by decide)
      (Or.inl (by decide))).1 (by decide)).1⟩

/-- C3: on a bundle with `canEcdsa` or one of RsaSha256/384/512 populated, a
ClientHello whose signature-algorithms extension is present and has a length
prefix that does not exactly consume the remaining bytes, or an empty list,
or a list of odd length, makes the callback return -1 without installing a
context. -/
theorem malformed_sig_algs_minus_one (tbl : Nat → Option SSL_CIPHER) (conf : srv_conf_t)
    (ctx : ssl_early_callback_ctx) (ext : List uint8_t)
    (hc : sigAlgsConsulted conf)
    (hext : SSL_early_callback_ctx_extension_get ctx TLSEXT_TYPE_signature_algorithms
      = some ext)
    (hmal : SigAlgsMalformed ext) :
    (select_certificate_cb tbl conf ctx).ret = -1
      ∧ (select_certificate_cb tbl conf ctx).installed = none := by
  rw [select_of_malformed tbl conf ctx ext hc hext hmal]
  exact ⟨rfl, rfl⟩

/-- C3, at a bundle with exactly EcdsaSha256 and RsaSha256 populated and an
extension whose list has odd length. -/
theorem malformed_sig_algs_minus_one_witness :
    sigAlgsConsulted bundleScenarioC
    ∧ SSL_early_callback_ctx_extension_get
        { cipher_suites := [0xC0, 0x2B],
          extensions := [(TLSEXT_TYPE_signature_algorithms, [0, 3, 4, 3, 4])] }
        TLSEXT_TYPE_signature_algorithms = some [0, 3, 4, 3, 4]
    ∧ SigAlgsMalformed [0, 3, 4, 3, 4]
    ∧ (select_certificate_cb exampleCiphers bundleScenarioC
        { cipher_suites := [0xC0, 0x2B],
          extensions := [(TLSEXT_TYPE_signature_algorithms, [0, 3, 4, 3, 4])] }).ret = -1 :=
  ⟨by decide, by decide, Or.inr (Or.inr (by decide)),
    (malformed_sig_algs_minus_one exampleCiphers bundleScenarioC
      { cipher_suites := [0xC0, 0x2B],
        extensions := [(TLSEXT_TYPE_signature_algorithms, [0, 3, 4, 3, 4])] }
      [0, 3, 4, 3, 4] (by decide) (by decide) (Or.inr (Or.inr (by decide)))).1⟩

/-- C4, as stated, fails: with only RsaLegacy populated and a ClientHello
without extensions the callback installs the context of RsaLegacy; the
outcome is not UseDefault. -/
theorem legacy_only_use_default_counterexample :
    (∀ s, bundleLegacyOnly.populated s = true ↔ s = .RsaLegacy)
    ∧ SSL_early_callback_ctx_extension_get helloBare TLSEXT_TYPE_signature_algorithms = none
    ∧ SSL_early_callback_ctx_extension_get helloBare TLSEXT_TYPE_server_name = none
    ∧ select_certificate_cb exampleCiphers bundleLegacyOnly helloBare
        = cb_result.selected .RsaLegacy
    ∧ select_certificate_cb exampleCiphers bundleLegacyOnly helloBare
        ≠ cb_result.useDefault :=
  ⟨fun s => by cases s <;> decide, by decide, by decide, by decide, by decide⟩

/-- C4, amended: for a bundle in which RsaLegacy is the only populated slot
and a ClientHello with neither a signature-algorithms nor a server-name
extension, the outcome is RsaLegacy: the context of that slot is installed
and the callback returns 1. -/
theorem legacy_only_selects_legacy (tbl : Nat → Option SSL_CIPHER) (conf : srv_conf_t)
    (ctx : ssl_early_callback_ctx)
    (hpop : ∀ s, conf.populated s = true ↔ s = .RsaLegacy)
    (hsig : SSL_early_callback_ctx_extension_get ctx TLSEXT_TYPE_signature_algorithms = none)
    (_hsni : SSL_early_callback_ctx_extension_get ctx TLSEXT_TYPE_server_name = none) :
    select_certificate_cb tbl conf ctx = cb_result.selected .RsaLegacy := by
  rw [select_of_absent tbl conf ctx hsig]
  have h256 : ¬ conf.populated .RsaSha256 = true := by
    rw [hpop]; decide
  have hleg : conf.populated .RsaLegacy = true := (hpop _).mpr rfl
  simp [fallbackOutcome, h256, hleg]

/-- C4 amended, at the bundle with only RsaLegacy and a ClientHello without
extensions. -/
theorem legacy_only_selects_legacy_witness :
    (∀ s, bundleLegacyOnly.populated s = true ↔ s = .RsaLegacy)
    ∧ SSL_early_callback_ctx_extension_get helloBare TLSEXT_TYPE_signature_algorithms = none
    ∧ SSL_early_callback_ctx_extension_get helloBare TLSEXT_TYPE_server_name = none
    ∧ select_certificate_cb exampleCiphers bundleLegacyOnly helloBare
        = cb_result.selected .RsaLegacy :=
  ⟨fun s => by cases s <;> decide, by decide, by decide,
    legacy_only_selects_legacy exampleCiphers bundleLegacyOnly helloBare
      (fun s => by cases s <;> decide) (by decide) (by decide)⟩

/-- C5: for a ClientHello without a signature-algorithms extension the
callback returns RsaSha256 if that slot is populated and a server-name
extension is present, otherwise RsaLegacy if that slot is populated,
otherwise UseDefault. -/
theorem no_sig_algs_fallback (tbl : Nat → Option SSL_CIPHER) (conf : srv_conf_t)
    (ctx : ssl_early_callback_ctx)
    (hsig : SSL_early_callback_ctx_extension_get ctx TLSEXT_TYPE_signature_algorithms = none) :
    select_certificate_cb tbl conf ctx =
      if conf.populated .RsaSha256 = true ∧ hasServerName ctx = true then
        cb_result.selected .RsaSha256
      else if conf.populated .RsaLegacy = true then
        cb_result.selected .RsaLegacy
      else
        cb_result.useDefault := by
  rw [select_of_absent tbl conf ctx hsig]
  rfl

/-- C5, at the bundle with RsaLegacy and RsaSha256 and a ClientHello with a
server-name extension only: the outcome is RsaSha256. -/
theorem no_sig_algs_fallback_witness :
    SSL_early_callback_ctx_extension_get helloServerName TLSEXT_TYPE_signature_algorithms
        = none
    ∧ bundleLegacySha256.populated .RsaLegacy = true
    ∧ bundleLegacySha256.populated .RsaSha256 = true
    ∧ hasServerName helloServerName = true
    ∧ select_certificate_cb exampleCiphers bundleLegacySha256 helloServerName
        = cb_result.selected .RsaSha256 :=
  ⟨by decide, by decide, by decide, by decide,
    (no_sig_algs_fallback exampleCiphers bundleLegacySha256 helloServerName
      (by decide)).trans (by decide)⟩

/-- C6: for a bundle with exactly EcdsaSha256 and RsaSha256 populated and a
non-empty ECDSA cipher set, and a ClientHello whose well-formed
signature-algorithms list has (SHA256, ECDSA) and (SHA256, RSA) as its only
tracked pairs and whose cipher-suite list has even length, the callback
returns EcdsaSha256 if some offered suite is ECDSA-keyed and in the cipher
set, and RsaSha256 otherwise; the server-name extension plays no part. -/
theorem scenario_ecdsa_or_rsa_sha256 (tbl : Nat → Option SSL_CIPHER) (conf : srv_conf_t)
    (ctx : ssl_early_callback_ctx) (ext list : List uint8_t)
    (hpop : ∀ s, conf.populated s = true ↔ (s = .EcdsaSha256 ∨ s = .RsaSha256))
    (hset : conf.ecdsa_ciphers ≠ [])
    (hext : SSL_early_callback_ctx_extension_get ctx TLSEXT_TYPE_signature_algorithms
      = some ext)
    (hwf : SigAlgsWellFormed ext list)
    (h256e : hasPair list TLSEXT_hash_sha256 TLSEXT_signature_ecdsa = true)
    (h256r : hasPair list TLSEXT_hash_sha256 TLSEXT_signature_rsa = true)
    (h384e : hasPair list TLSEXT_hash_sha384 TLSEXT_signature_ecdsa = false)
    (h384r : hasPair list TLSEXT_hash_sha384 TLSEXT_signature_rsa = false)
    (h512e : hasPair list TLSEXT_hash_sha512 TLSEXT_signature_ecdsa = false)
    (h512r : hasPair list TLSEXT_hash_sha512 TLSEXT_signature_rsa = false)
    (hcs : ctx.cipher_suites.length % 2 = 0) :
    select_certificate_cb tbl conf ctx =
      if hasEcdsaCipher tbl conf ctx = true then cb_result.selected .EcdsaSha256
      else cb_result.selected .RsaSha256 := by
  have pE256 : conf.populated .EcdsaSha256 = true := (hpop _).mpr (Or.inl rfl)
  have pR256 : conf.populated .RsaSha256 = true := (hpop _).mpr (Or.inr rfl)
  have pE384 : conf.populated .EcdsaSha384 = false := by
    rw [← Bool.not_eq_true, hpop]; decide
  have pE512 : conf.populated .EcdsaSha512 = false := by
    rw [← Bool.not_eq_true, hpop]; decide
  have pR384 : conf.populated .RsaSha384 = false := by
    rw [← Bool.not_eq_true, hpop]; decide
  have pR512 : conf.populated .RsaSha512 = false := by
    rw [← Bool.not_eq_true, hpop]; decide
  have hcanE : canEcdsa conf := ⟨Or.inl pE256, hset⟩
  have hcan : can_ecdsa conf = true := (can_ecdsa_iff conf).mpr hcanE
  rw [select_of_wf tbl conf ctx ext list (Or.inl hcanE) hext hwf, cipher_suites_block_eq]
  simp only [srv_conf_t.populated, srv_conf_t.slot] at pE256 pR256 pE384 pE512 pR384 pR512
  simp only [SignatureAlgorithmSet, select_chain, h256e, h256r, h384e, h384r, h512e, h512r,
    pE256, pR256, pE384, pE512, pR384, pR512, hcan]
  by_cases hE : hasEcdsaCipher tbl conf ctx = true
  · simp [hE]
  · have hodd : ¬ ctx.cipher_suites.length % 2 = 1 := by omega
    simp [hE, hodd]

/-- C6, at Scenario C: the client offers the ECDSA suite 0xC02B of the
bundle's set, and the outcome is EcdsaSha256. -/
theorem scenario_ecdsa_or_rsa_sha256_witness :
    (∀ s, bundleScenarioC.populated s = true ↔ (s = .EcdsaSha256 ∨ s = .RsaSha256))
    ∧ bundleScenarioC.ecdsa_ciphers ≠ []
    ∧ SigAlgsWellFormed [0, 4, 4, 3, 4, 1] [4, 3, 4, 1]
    ∧ select_certificate_cb exampleCiphers bundleScenarioC
        { cipher_suites := [0xC0, 0x2B],
          extensions := [(TLSEXT_TYPE_signature_algorithms, [0, 4, 4, 3, 4, 1])] }
        = cb_result.selected .EcdsaSha256 :=
  have hwf : SigAlgsWellFormed [0, 4, 4, 3, 4, 1] [4, 3, 4, 1] :=
    ⟨0, 4, rfl, by decide, by decide, by decide⟩
  ⟨fun s => by cases s <;> decide, by decide, hwf,
    (scenario_ecdsa_or_rsa_sha256 exampleCiphers bundleScenarioC
      { cipher_suites := [0xC0, 0x2B],
        extensions := [(TLSEXT_TYPE_signature_algorithms, [0, 4, 4, 3, 4, 1])] }
      [0, 4, 4, 3, 4, 1] [4, 3, 4, 1] (fun s => by cases s <;> decide) (by decide)
      (by decide) hwf (by decide) (by decide) (by decide) (by decide) (by decide)
      (by decide) (by decide)).trans (by decide)⟩

/-- C7: when the cipher-suite scan is evaluated and the suite `hi lo` that
follows the `pre.length / 2` incompatible suites of `pre` is the first
compatible one, the loop leaves with `has_ecdsa = 1` and its cursor right
behind that suite, so the callback goes on with `has_ecdsa = 1`, and the
outcome of the callback is the same whatever bytes `post2`, of even or odd
length or none at all, follow the suite. -/
theorem cipher_scan_short_circuit (tbl : Nat → Option SSL_CIPHER) (conf : srv_conf_t)
    (ctx : ssl_early_callback_ctx) (ext list pre post : List uint8_t) (hi lo : uint8_t)
    (_hext : SSL_early_callback_ctx_extension_get ctx TLSEXT_TYPE_signature_algorithms
      = some ext)
    (_hwf : SigAlgsWellFormed ext list)
    (hscan : scanEvaluated conf list)
    (hcs : ctx.cipher_suites = pre ++ hi :: lo :: post)
    (hpre : pre.length % 2 = 0)
    (hno : ∀ v ∈ offered_suites pre, suiteCompatible tbl conf.ecdsa_ciphers v = false)
    (hyes : suiteCompatible tbl conf.ecdsa_ciphers (hi.val * 256 + lo.val) = true) :
    cipher_suites_loop tbl conf.ecdsa_ciphers ctx.cipher_suites = some (true, post)
    ∧ cipher_suites_block tbl conf ctx (SignatureAlgorithmSet list) = some true
    ∧ ∀ post2 : List uint8_t,
        select_certificate_cb tbl conf { ctx with cipher_suites := pre ++ hi :: lo :: post2 }
          = select_certificate_cb tbl conf ctx := by
  have hloop := fun p =>
    cipher_suites_loop_first_match tbl conf.ecdsa_ciphers hi lo p hyes pre hpre hno
  have hev := (scanEvaluated_iff conf list).mp hscan
  refine ⟨by rw [hcs]; exact hloop post, ?_, fun post2 => ?_⟩
  · unfold cipher_suites_block
    rw [if_pos (by simpa using hev), hcs, hloop]
    rfl
  · refine select_congr tbl conf ctx _ rfl (fun f => ?_)
    unfold cipher_suites_block
    simp only [hcs, hloop, Option.map_some']

/-- C7, at a ClientHello offering 0xC02F, then 0xC02B, then a dangling
byte: the scan stops behind 0xC02B, and dropping the byte or replacing it
changes nothing. -/
theorem cipher_scan_short_circuit_witness :
    scanEvaluated bundleAll sixPairs
    ∧ cipher_suites_loop exampleCiphers bundleAll.ecdsa_ciphers
        [0xC0, 0x2F, 0xC0, 0x2B, 0x07] = some (true, [0x07])
    ∧ select_certificate_cb exampleCiphers bundleAll
        { helloAllSix with cipher_suites := [0xC0, 0x2F, 0xC0, 0x2B] }
        = select_certificate_cb exampleCiphers bundleAll
            { helloAllSix with cipher_suites := [0xC0, 0x2F, 0xC0, 0x2B, 0x07] } :=
  have h := cipher_scan_short_circuit exampleCiphers bundleAll
    { helloAllSix with cipher_suites := [0xC0, 0x2F, 0xC0, 0x2B, 0x07] }
    (0 :: 14 :: sixPairs) sixPairs [0xC0, 0x2F] [0x07] 0xC0 0x2B (by decide)
    ⟨0, 14, rfl, by decide, by decide, by decide⟩ (by decide) rfl (by decide)
    (by decide) (by decide)
  ⟨by decide, h.1, h.2.2 []⟩

/-- C8, as stated, fails: the scan is evaluated and the cipher-suite bytes
have odd length, yet the callback serves EcdsaSha256, because the loop left
at the compatible suite 0xC02B before reaching the dangling byte. -/
theorem truncated_cipher_suites_counterexample :
    SSL_early_callback_ctx_extension_get
        { cipher_suites := [0xC0, 0x2B, 0x00],
          extensions := [(TLSEXT_TYPE_signature_algorithms, [0, 4, 4, 3, 4, 1])] }
        TLSEXT_TYPE_signature_algorithms = some [0, 4, 4, 3, 4, 1]
    ∧ SigAlgsWellFormed [0, 4, 4, 3, 4, 1] [4, 3, 4, 1]
    ∧ scanEvaluated bundleScenarioC [4, 3, 4, 1]
    ∧ ([0xC0, 0x2B, 0x00] : List uint8_t).length % 2 = 1
    ∧ select_certificate_cb exampleCiphers bundleScenarioC
        { cipher_suites := [0xC0, 0x2B, 0x00],
          extensions := [(TLSEXT_TYPE_signature_algorithms, [0, 4, 4, 3, 4, 1])] }
        = cb_result.selected .EcdsaSha256
    ∧ select_certificate_cb exampleCiphers bundleScenarioC
        { cipher_suites := [0xC0, 0x2B, 0x00],
          extensions := [(TLSEXT_TYPE_signature_algorithms, [0, 4, 4, 3, 4, 1])] }
        ≠ cb_result.parseError :=
  ⟨by decide, ⟨0, 4, rfl, by decide, by decide, by decide⟩, by decide, by decide, by decide,
    by decide⟩

/-- C8, amended: when the cipher-suite scan is evaluated (well-formed
signature-algorithms extension present, an ECDSA flag set, an ECDSA slot
populated, ECDSA cipher set non-empty), the cipher-suite byte string has odd
length and none of its complete suites is ECDSA-keyed and in the cipher
set, the callback returns the parse-error outcome. -/
theorem truncated_cipher_suites_abort (tbl : Nat → Option SSL_CIPHER) (conf : srv_conf_t)
    (ctx : ssl_early_callback_ctx) (ext list : List uint8_t)
    (hext : SSL_early_callback_ctx_extension_get ctx TLSEXT_TYPE_signature_algorithms
      = some ext)
    (hwf : SigAlgsWellFormed ext list)
    (hscan : scanEvaluated conf list)
    (hodd : ctx.cipher_suites.length % 2 = 1)
    (hno : hasEcdsaCipher tbl conf ctx = false) :
    select_certificate_cb tbl conf ctx = cb_result.parseError := by
  rw [select_of_wf tbl conf ctx ext list (Or.inl hscan.1) hext hwf, cipher_suites_block_eq,
    if_pos ((scanEvaluated_iff conf list).mp hscan)]
  simp [hno, hodd]

/-- C8 amended, at a ClientHello offering the RSA suite 0xC02F and a
dangling byte. -/
theorem truncated_cipher_suites_abort_witness :
    SigAlgsWellFormed [0, 4, 4, 3, 4, 1] [4, 3, 4, 1]
    ∧ scanEvaluated bundleScenarioC [4, 3, 4, 1]
    ∧ select_certificate_cb exampleCiphers bundleScenarioC
        { cipher_suites := [0xC0, 0x2F, 0x00],
          extensions := [(TLSEXT_TYPE_signature_algorithms, [0, 4, 4, 3, 4, 1])] }
        = cb_result.parseError :=
  have hwf : SigAlgsWellFormed [0, 4, 4, 3, 4, 1] [4, 3, 4, 1] :=
    ⟨0, 4, rfl, by decide, by decide, by decide⟩
  ⟨hwf, by decide,
    truncated_cipher_suites_abort exampleCiphers bundleScenarioC
      { cipher_suites := [0xC0, 0x2F, 0x00],
        extensions := [(TLSEXT_TYPE_signature_algorithms, [0, 4, 4, 3, 4, 1])] }
      [0, 4, 4, 3, 4, 1] [4, 3, 4, 1] (by decide) hwf (by decide) (by decide) (by decide)⟩

/-- C9: the callback does not return the parse-error outcome when the
signature-algorithms extension is absent, nor when it is present,
well-formed and holds none of the six tracked pairs, whatever the bundle and
the cipher-suite bytes; in both cases the outcome is that of the fallback
step. -/
theorem no_match_is_fallback (tbl : Nat → Option SSL_CIPHER) (conf : srv_conf_t)
    (ctx : ssl_early_callback_ctx)
    (h : SSL_early_callback_ctx_extension_get ctx TLSEXT_TYPE_signature_algorithms = none
      ∨ ∃ ext list,
          SSL_early_callback_ctx_extension_get ctx TLSEXT_TYPE_signature_algorithms
            = some ext
          ∧ SigAlgsWellFormed ext list
          ∧ hasPair list TLSEXT_hash_sha256 TLSEXT_signature_rsa = false
          ∧ hasPair list TLSEXT_hash_sha384 TLSEXT_signature_rsa = false
          ∧ hasPair list TLSEXT_hash_sha512 TLSEXT_signature_rsa = false
          ∧ hasPair list TLSEXT_hash_sha256 TLSEXT_signature_ecdsa = false
          ∧ hasPair list TLSEXT_hash_sha384 TLSEXT_signature_ecdsa = false
          ∧ hasPair list TLSEXT_hash_sha512 TLSEXT_signature_ecdsa = false) :
    select_certificate_cb tbl conf ctx ≠ cb_result.parseError
      ∧ select_certificate_cb tbl conf ctx = fallbackOutcome conf ctx := by
  have key : select_certificate_cb tbl conf ctx = fallbackOutcome conf ctx := by
    rcases h with h | ⟨ext, list, hext, hwf, r256, r384, r512, e256, e384, e512⟩
    · exact select_of_absent tbl conf ctx h
    · by_cases hc : sigAlgsConsulted conf
      · rw [select_of_wf tbl conf ctx ext list hc hext hwf]
        simp [cipher_suites_block, select_chain, SignatureAlgorithmSet, r256, r384, r512,
          e256, e384, e512]
      · exact select_of_not_consulted tbl conf ctx hc
  exact ⟨by rw [key]; exact fallbackOutcome_ne_parseError conf ctx, key⟩

/-- C9, at a bundle with every slot populated and a ClientHello whose
well-formed list holds two untracked pairs and whose cipher-suite bytes
have odd length: the outcome is RsaLegacy, from the fallback. -/
theorem no_match_is_fallback_witness :
    SigAlgsWellFormed [0, 4, 2, 1, 2, 3] [2, 1, 2, 3]
    ∧ fallbackOutcome bundleAll
        { cipher_suites := [0xC0, 0x2B, 0x00],
          extensions := [(TLSEXT_TYPE_signature_algorithms, [0, 4, 2, 1, 2, 3])] }
        = cb_result.selected .RsaLegacy
    ∧ select_certificate_cb exampleCiphers bundleAll
        { cipher_suites := [0xC0, 0x2B, 0x00],
          extensions := [(TLSEXT_TYPE_signature_algorithms, [0, 4, 2, 1, 2, 3])] }
        = fallbackOutcome bundleAll
            { cipher_suites := [0xC0, 0x2B, 0x00],
              extensions := [(TLSEXT_TYPE_signature_algorithms, [0, 4, 2, 1, 2, 3])] } :=
  have hwf : SigAlgsWellFormed [0, 4, 2, 1, 2, 3] [2, 1, 2, 3] :=
    ⟨0, 4, rfl, by decide, by decide, by decide⟩
  ⟨hwf, by decide,
    (no_match_is_fallback exampleCiphers bundleAll
      { cipher_suites := [0xC0, 0x2B, 0x00],
        extensions := [(TLSEXT_TYPE_signature_algorithms, [0, 4, 2, 1, 2, 3])] }
      (Or.inr ⟨[0, 4, 2, 1, 2, 3], [2, 1, 2, 3], by decide, hwf, by decide, by decide,
        by decide, by decide, by decide, by decide⟩)).2⟩

/-- C10: `kCertSigNIDs` is the spec's Slot Table followed by the sentinel;
for a certificate whose signature algorithm is one of the eight table
entries `set_conf_ssl_for_ctx` addresses the slot of that entry (MD5- and
SHA1-with-RSA RsaLegacy, SHA256/384/512-with-RSA RsaSha256/384/512,
ECDSA-with-SHA256/384/512 EcdsaSha256/384/512), and for every other
signature algorithm it returns `NULL`, whatever the bundle. -/
theorem kCertSigNIDs_slot_table (conf : srv_conf_t) (ssl : ngx_ssl_t) (c : SSL_CTX)
    (cert : X509) (hctx : ssl.ctx = some c) (hcert : c.certificate = some cert) :
    kCertSigNIDs
        = SlotTable.map (fun p => { nid := p.1, offset := some p.2 })
          ++ [{ nid := NID_undef, offset := none }]
    ∧ (∀ p ∈ SlotTable, cert.signature_nid = p.1 →
        set_conf_ssl_for_ctx conf ssl =
          if conf.populated p.2 = true then none else some (p.2, conf.setSlot p.2 ssl))
    ∧ ((∀ p ∈ SlotTable, cert.signature_nid ≠ p.1) → set_conf_ssl_for_ctx conf ssl = none) := by
  have hfun : set_conf_ssl_for_ctx conf ssl
      = set_conf_ssl_for_ctx_loop conf ssl cert.signature_nid kCertSigNIDs := by
    unfold set_conf_ssl_for_ctx
    simp only [hctx, hcert]
  rw [hfun, set_conf_ssl_for_ctx_loop_table]
  refine ⟨rfl, ?_, ?_⟩
  · intro p hp hnid
    rw [hnid]
    simp only [SlotTable, List.mem_cons, List.mem_singleton, List.not_mem_nil, or_false] at hp
    rcases hp with rfl | rfl | rfl | rfl | rfl | rfl | rfl | rfl <;> rfl
  · intro hnone
    have : SlotTable.find? (fun p => p.1 == cert.signature_nid) = none := by
      rw [List.find?_eq_none]
      intro p hp hb
      exact hnone p hp (eq_of_beq hb).symm
    rw [this]

/-- C10, at an empty bundle and a certificate signed with MD5-with-RSA,
which goes to RsaLegacy. -/
theorem kCertSigNIDs_slot_table_witness :
    (filledSlot 9 NID_md5WithRSAEncryption).ctx
        = some { id := 9, certificate := some { signature_nid := NID_md5WithRSAEncryption } }
    ∧ (set_conf_ssl_for_ctx { bundleLegacyOnly with ssl_rsa := emptySlot }
        (filledSlot 9 NID_md5WithRSAEncryption)).map (fun r => r.1) = some Slot.RsaLegacy :=
  ⟨rfl,
    ((kCertSigNIDs_slot_table { bundleLegacyOnly with ssl_rsa := emptySlot }
      (filledSlot 9 NID_md5WithRSAEncryption)
      { id := 9, certificate := some { signature_nid := NID_md5WithRSAEncryption } }
      { signature_nid := NID_md5WithRSAEncryption } rfl rfl).2.1
      (NID_md5WithRSAEncryption, .RsaLegacy) (by decide) rfl) ▸ (by decide)⟩

/-- C11: for a certificate with a recognized signature algorithm,
`set_conf_ssl_for_ctx` fails exactly when the slot the table assigns to the
algorithm is already populated; on that failure, and on the failure for an
unrecognized algorithm, the configuration (every slot of it) is as before.
In particular, with RsaLegacy free, an MD5-with-RSA and a SHA1-with-RSA
certificate collide: whichever comes second is refused. -/
theorem set_conf_ssl_for_ctx_fails_iff (conf : srv_conf_t) (ssl : ngx_ssl_t) (nid : Int)
    (s : Slot) (hcert : certificateSignatureAlgorithm ssl = some nid)
    (hrec : (nid, s) ∈ SlotTable) :
    ((set_conf_ssl_for_ctx_st conf ssl).1 = none ↔ conf.populated s = true)
    ∧ ((set_conf_ssl_for_ctx_st conf ssl).1 = none →
        (set_conf_ssl_for_ctx_st conf ssl).2 = conf)
    ∧ (∀ (ssl2 : ngx_ssl_t) (nid2 : Int), certificateSignatureAlgorithm ssl2 = some nid2 →
        (∀ p ∈ SlotTable, p.1 ≠ nid2) → set_conf_ssl_for_ctx_st conf ssl2 = (none, conf))
    ∧ (∀ md5 sha1 : ngx_ssl_t,
        certificateSignatureAlgorithm md5 = some NID_md5WithRSAEncryption →
        certificateSignatureAlgorithm sha1 = some NID_sha1WithRSAEncryption →
        conf.populated .RsaLegacy = false →
        (set_conf_ssl_for_ctx_st conf md5).1 = some .RsaLegacy
        ∧ (set_conf_ssl_for_ctx_st (set_conf_ssl_for_ctx_st conf md5).2 sha1).1 = none
        ∧ (set_conf_ssl_for_ctx_st conf sha1).1 = some .RsaLegacy
        ∧ (set_conf_ssl_for_ctx_st (set_conf_ssl_for_ctx_st conf sha1).2 md5).1 = none) := by
  have hs := slotOfNid_of_mem nid s hrec
  have hst := set_conf_ssl_for_ctx_st_spec conf ssl nid hcert
  rw [hs] at hst
  refine ⟨?_, ?_, ?_, ?_⟩
  · rw [hst]
    by_cases hp : conf.populated s = true
    · simp [hp]
    · simp [hp]
  · rw [hst]
    by_cases hp : conf.populated s = true
    · simp [hp]
    · simp [hp]
  · intro ssl2 nid2 h2 hno
    rw [set_conf_ssl_for_ctx_st_spec conf ssl2 nid2 h2, slotOfNid_eq_none nid2 hno]
  · intro md5 sha1 hmd5 hsha1 hfree
    have e1 : slotOfNid NID_md5WithRSAEncryption = some .RsaLegacy := rfl
    have e2 : slotOfNid NID_sha1WithRSAEncryption = some .RsaLegacy := rfl
    have a1 : set_conf_ssl_for_ctx_st conf md5 = (some .RsaLegacy, conf.setSlot .RsaLegacy md5) := by
      rw [set_conf_ssl_for_ctx_st_spec conf md5 _ hmd5, e1]; simp [hfree]
    have a2 : set_conf_ssl_for_ctx_st conf sha1
        = (some .RsaLegacy, conf.setSlot .RsaLegacy sha1) := by
      rw [set_conf_ssl_for_ctx_st_spec conf sha1 _ hsha1, e2]; simp [hfree]
    have p1 : (conf.setSlot .RsaLegacy md5).populated .RsaLegacy = true :=
      (populated_setSlot conf _ _ md5 (ctx_isSome_of_certificate md5 _ hmd5)).mpr (Or.inl rfl)
    have p2 : (conf.setSlot .RsaLegacy sha1).populated .RsaLegacy = true :=
      (populated_setSlot conf _ _ sha1 (ctx_isSome_of_certificate sha1 _ hsha1)).mpr
        (Or.inl rfl)
    rw [a1, a2]
    refine ⟨rfl, ?_, rfl, ?_⟩
    · rw [set_conf_ssl_for_ctx_st_spec _ sha1 _ hsha1, e2]; simp [p1]
    · rw [set_conf_ssl_for_ctx_st_spec _ md5 _ hmd5, e1]; simp [p2]

/-- C11, at the bundle with only RsaLegacy populated (by a SHA1-with-RSA
certificate) and an MD5-with-RSA certificate: the call fails and the bundle
is as before. -/
theorem set_conf_ssl_for_ctx_fails_iff_witness :
    certificateSignatureAlgorithm (filledSlot 9 NID_md5WithRSAEncryption)
        = some NID_md5WithRSAEncryption
    ∧ (NID_md5WithRSAEncryption, Slot.RsaLegacy) ∈ SlotTable
    ∧ bundleLegacyOnly.populated .RsaLegacy = true
    ∧ set_conf_ssl_for_ctx_st bundleLegacyOnly (filledSlot 9 NID_md5WithRSAEncryption)
        = (none, bundleLegacyOnly) :=
  have h := set_conf_ssl_for_ctx_fails_iff bundleLegacyOnly
    (filledSlot 9 NID_md5WithRSAEncryption) NID_md5WithRSAEncryption .RsaLegacy rfl
    (by decide)
  ⟨rfl, by decide, by decide,
    Prod.ext (h.1.mpr (by decide)) (h.2.1 (h.1.mpr (by decide)))⟩

/-- C20: when `set_conf_ssl_for_ctx` succeeds, the slot it returns is the
one the table assigns to the certificate's signature algorithm; that slot
was unpopulated and now holds the given `ngx_ssl_t` (a context that is not
`NULL`); the other six slots, the ECDSA cipher set and the directive arrays
are as before. -/
theorem set_conf_ssl_for_ctx_frame (conf conf1 : srv_conf_t) (ssl : ngx_ssl_t) (s : Slot)
    (h : set_conf_ssl_for_ctx_st conf ssl = (some s, conf1)) :
    (∃ nid, certificateSignatureAlgorithm ssl = some nid ∧ (nid, s) ∈ SlotTable)
    ∧ conf.populated s = false
    ∧ conf1.slot s = ssl
    ∧ conf1.populated s = true
    ∧ (∀ t, t ≠ s → conf1.slot t = conf.slot t)
    ∧ conf1.ecdsa_ciphers = conf.ecdsa_ciphers
    ∧ conf1.certificate = conf.certificate
    ∧ conf1.certificate_key = conf.certificate_key := by
  cases hn : certificateSignatureAlgorithm ssl with
  | none =>
    rw [set_conf_ssl_for_ctx_st_no_certificate conf ssl hn] at h
    simp at h
  | some nid =>
    rw [set_conf_ssl_for_ctx_st_spec conf ssl nid hn] at h
    cases hs : slotOfNid nid with
    | none => simp [hs] at h
    | some t =>
      rw [hs] at h
      by_cases hp : conf.populated t = true
      · simp [hp] at h
      · simp only [hp, if_false, Prod.mk.injEq, Option.some.injEq] at h
        obtain ⟨rfl, rfl⟩ := h
        have hctx := ctx_isSome_of_certificate ssl nid hn
        refine ⟨⟨nid, rfl, mem_of_slotOfNid nid s hs⟩, by simpa using hp, ?_, ?_, ?_,
          ecdsa_ciphers_setSlot conf s ssl, (certificate_setSlot conf s ssl).1,
          (certificate_setSlot conf s ssl).2⟩
        · rw [slot_setSlot]; simp
        · exact (populated_setSlot conf s s ssl hctx).mpr (Or.inl rfl)
        · intro u hu
          rw [slot_setSlot]; simp [hu]

/-- C20, at the bundle with only RsaLegacy populated and an
ECDSA-with-SHA384 certificate, which goes to EcdsaSha384. -/
theorem set_conf_ssl_for_ctx_frame_witness :
    set_conf_ssl_for_ctx_st bundleLegacyOnly (filledSlot 9 NID_ecdsa_with_SHA384)
        = (some .EcdsaSha384,
            { bundleLegacyOnly with ssl_ecdsa_sha384 := filledSlot 9 NID_ecdsa_with_SHA384 })
    ∧ bundleLegacyOnly.populated .EcdsaSha384 = false
    ∧ ({ bundleLegacyOnly with
          ssl_ecdsa_sha384 := filledSlot 9 NID_ecdsa_with_SHA384 } : srv_conf_t).slot
        .RsaLegacy = bundleLegacyOnly.slot .RsaLegacy :=
  have h := set_conf_ssl_for_ctx_frame bundleLegacyOnly
    { bundleLegacyOnly with ssl_ecdsa_sha384 := filledSlot 9 NID_ecdsa_with_SHA384 }
    (filledSlot 9 NID_ecdsa_with_SHA384) .EcdsaSha384 (by decide)
  ⟨by decide, h.2.1, h.2.2.2.2.1 .RsaLegacy (by decide)⟩

/-- C14: the outcome of the callback is a function of the population of the
slots and the ECDSA cipher set of the bundle and of the signature-algorithms
bytes, the cipher-suite bytes and the presence of a server-name extension
of the ClientHello: two calls that agree on these yield the same outcome
(so do two calls on the same bundle and ClientHello), whatever else differs
(contexts, certificates, directive arrays, other extensions). A call leaves
the bundle as it was; it changes the connection only. -/
theorem select_certificate_cb_deterministic (tbl : Nat → Option SSL_CIPHER)
    (conf conf2 : srv_conf_t) (ctx ctx2 : ssl_early_callback_ctx) (ssl : SSL)
    (hpop : ∀ s, conf.populated s = conf2.populated s)
    (hset : conf.ecdsa_ciphers = conf2.ecdsa_ciphers)
    (hsig : SSL_early_callback_ctx_extension_get ctx TLSEXT_TYPE_signature_algorithms
      = SSL_early_callback_ctx_extension_get ctx2 TLSEXT_TYPE_signature_algorithms)
    (hcs : ctx.cipher_suites = ctx2.cipher_suites)
    (hsni : hasServerName ctx = hasServerName ctx2) :
    select_certificate_cb tbl conf ctx = select_certificate_cb tbl conf2 ctx2
    ∧ (select_certificate_cb_st tbl conf ssl ctx).2.1 = conf
    ∧ (select_certificate_cb_st tbl conf ssl ctx).1
        = (select_certificate_cb tbl conf ctx).ret := by
  refine ⟨?_, ?_, ?_⟩
  · have p1 := hpop .ssl_rsa
    have p2 := hpop .ssl_rsa_sha256
    have p3 := hpop .ssl_rsa_sha384
    have p4 := hpop .ssl_rsa_sha512
    have p5 := hpop .ssl_ecdsa_sha256
    have p6 := hpop .ssl_ecdsa_sha384
    have p7 := hpop .ssl_ecdsa_sha512
    simp only [srv_conf_t.populated, srv_conf_t.slot] at p1 p2 p3 p4 p5 p6 p7
    have hcan : can_ecdsa conf = can_ecdsa conf2 := by
      unfold can_ecdsa; rw [p5, p6, p7, hset]
    have hchain : ∀ h f, select_chain conf h f = select_chain conf2 h f := by
      intro h f; unfold select_chain; rw [p2, p3, p4, p5, p6, p7]
    have hblock : ∀ f, cipher_suites_block tbl conf ctx f
        = cipher_suites_block tbl conf2 ctx2 f := by
      intro f; unfold cipher_suites_block; rw [hcan, hset, hcs]
    have hcont : continue_check conf ctx = continue_check conf2 ctx2 := by
      unfold continue_check; rw [hasServerName_eq, hasServerName_eq, p1, p2, hsni]
    unfold select_certificate_cb
    simp only [hcan, p2, p3, p4, hsig, hchain, hblock, hcont]
  · unfold select_certificate_cb_st
    dsimp only
    split <;> rfl
  · unfold select_certificate_cb_st
    dsimp only
    split <;> rfl

/-- C14, at two bundles with the same populated slots but other contexts,
and two ClientHellos that differ in the content of the server-name
extension and in an extension the callback does not read. -/
theorem select_certificate_cb_deterministic_witness :
    bundleScenarioC ≠ { bundleScenarioC with
        ssl_rsa_sha256 := filledSlot 7 NID_sha256WithRSAEncryption, certificate := none }
    ∧ select_certificate_cb exampleCiphers bundleScenarioC
        { cipher_suites := [0xC0, 0x2B],
          extensions := [(TLSEXT_TYPE_server_name, [1]),
            (TLSEXT_TYPE_signature_algorithms, [0, 2, 4, 3])] }
      = select_certificate_cb exampleCiphers
        { bundleScenarioC with
          ssl_rsa_sha256 := filledSlot 7 NID_sha256WithRSAEncryption, certificate := none }
        { cipher_suites := [0xC0, 0x2B],
          extensions := [(10, [0]), (TLSEXT_TYPE_signature_algorithms, [0, 2, 4, 3]),
            (TLSEXT_TYPE_server_name, [2, 3])] } :=
  ⟨by decide,
    (select_certificate_cb_deterministic exampleCiphers bundleScenarioC
      { bundleScenarioC with
        ssl_rsa_sha256 := filledSlot 7 NID_sha256WithRSAEncryption, certificate := none }
      { cipher_suites := [0xC0, 0x2B],
        extensions := [(TLSEXT_TYPE_server_name, [1]),
          (TLSEXT_TYPE_signature_algorithms, [0, 2, 4, 3])] }
      { cipher_suites := [0xC0, 0x2B],
        extensions := [(10, [0]), (TLSEXT_TYPE_signature_algorithms, [0, 2, 4, 3]),
          (TLSEXT_TYPE_server_name, [2, 3])] }
      { ctx := none } (fun s => by cases s <;> rfl) rfl (by decide) rfl (by decide)).1⟩

/-- C15: on a list of even length the loop of the callback, which stops as
soon as all six flags are set, does not fail and leaves the flags of the
spec's full scan; each flag is set exactly when its pair stands at some
even offset of the list, so pairs other than the six set no flag. (The empty
list, which the callback rejects before the loop, is covered as well.) -/
theorem sig_algs_loop_is_full_scan (list : List uint8_t) (heven : list.length % 2 = 0) :
    sig_algs_loop list sig_flags.init = some (fullScan list sig_flags.init)
    ∧ ((fullScan list sig_flags.init).has_sha256_rsa = true
        ↔ occursAtEvenOffset list TLSEXT_hash_sha256 TLSEXT_signature_rsa)
    ∧ ((fullScan list sig_flags.init).has_sha384_rsa = true
        ↔ occursAtEvenOffset list TLSEXT_hash_sha384 TLSEXT_signature_rsa)
    ∧ ((fullScan list sig_flags.init).has_sha512_rsa = true
        ↔ occursAtEvenOffset list TLSEXT_hash_sha512 TLSEXT_signature_rsa)
    ∧ ((fullScan list sig_flags.init).has_sha256_ecdsa = true
        ↔ occursAtEvenOffset list TLSEXT_hash_sha256 TLSEXT_signature_ecdsa)
    ∧ ((fullScan list sig_flags.init).has_sha384_ecdsa = true
        ↔ occursAtEvenOffset list TLSEXT_hash_sha384 TLSEXT_signature_ecdsa)
    ∧ ((fullScan list sig_flags.init).has_sha512_ecdsa = true
        ↔ occursAtEvenOffset list TLSEXT_hash_sha512 TLSEXT_signature_ecdsa) := by
  rw [fullScan_init, sig_algs_loop_init list heven]
  exact ⟨rfl, hasPair_iff_occurs list _ _, hasPair_iff_occurs list _ _,
    hasPair_iff_occurs list _ _, hasPair_iff_occurs list _ _, hasPair_iff_occurs list _ _,
    hasPair_iff_occurs list _ _⟩

/-- C15, at a list whose six tracked pairs are complete before its last,
untracked, pair: the loop stops early with the flags of the full scan. -/
theorem sig_algs_loop_is_full_scan_witness :
    (sixPairs ++ [9, 9]).length % 2 = 0
    ∧ sig_algs_loop (sixPairs ++ [9, 9]) sig_flags.init
        = some { has_sha256_rsa := true, has_sha256_ecdsa := true, has_sha384_rsa := true,
                 has_sha384_ecdsa := true, has_sha512_rsa := true, has_sha512_ecdsa := true } :=
  ⟨by decide,
    (sig_algs_loop_is_full_scan (sixPairs ++ [9, 9]) (by decide)).1.trans (by decide)⟩

/-- C16, as stated, fails: the extension is well-formed and no priority rule
is satisfied, but the cipher-suite scan, run because the ECDSA-SHA256 flag
is set, finds no compatible suite before a dangling byte and aborts; without
the extension the same ClientHello gets UseDefault. -/
theorem no_rule_same_as_removed_counterexample :
    SSL_early_callback_ctx_extension_get
        { cipher_suites := [0xC0, 0x2F, 0x00],
          extensions := [(TLSEXT_TYPE_signature_algorithms, [0, 2, 4, 3])] }
        TLSEXT_TYPE_signature_algorithms = some [0, 2, 4, 3]
    ∧ SigAlgsWellFormed [0, 2, 4, 3] [4, 3]
    ∧ firstSatisfiedRule bundleScenarioC
        (hasEcdsaCipher exampleCiphers bundleScenarioC
          { cipher_suites := [0xC0, 0x2F, 0x00],
            extensions := [(TLSEXT_TYPE_signature_algorithms, [0, 2, 4, 3])] })
        (SignatureAlgorithmSet [4, 3]) = none
    ∧ select_certificate_cb exampleCiphers bundleScenarioC
        { cipher_suites := [0xC0, 0x2F, 0x00],
          extensions := [(TLSEXT_TYPE_signature_algorithms, [0, 2, 4, 3])] }
        = cb_result.parseError
    ∧ select_certificate_cb exampleCiphers bundleScenarioC
        (removeSigAlgs
          { cipher_suites := [0xC0, 0x2F, 0x00],
            extensions := [(TLSEXT_TYPE_signature_algorithms, [0, 2, 4, 3])] })
        = cb_result.useDefault :=
  ⟨by decide, ⟨0, 2, rfl, by decide, by decide, by decide⟩, by decide, by decide, by decide⟩

/-- C16, amended: when the signature-algorithms extension is well-formed, the
callback does not abort on the cipher-suite list, and none of the six
priority rules is satisfied, the outcome equals the outcome on the same
bundle and the same ClientHello without the extension. -/
theorem no_rule_same_as_removed (tbl : Nat → Option SSL_CIPHER) (conf : srv_conf_t)
    (ctx : ssl_early_callback_ctx) (ext list : List uint8_t)
    (hext : SSL_early_callback_ctx_extension_get ctx TLSEXT_TYPE_signature_algorithms
      = some ext)
    (hwf : SigAlgsWellFormed ext list)
    (hparse : select_certificate_cb tbl conf ctx ≠ cb_result.parseError)
    (hnone : firstSatisfiedRule conf (hasEcdsaCipher tbl conf ctx)
      (SignatureAlgorithmSet list) = none) :
    select_certificate_cb tbl conf ctx
      = select_certificate_cb tbl conf (removeSigAlgs ctx) := by
  rw [select_removeSigAlgs]
  by_cases hc : sigAlgsConsulted conf
  · have hsel := select_of_wf tbl conf ctx ext list hc hext hwf
    rw [hsel] at hparse ⊢
    cases hb : cipher_suites_block tbl conf ctx (SignatureAlgorithmSet list) with
    | none => simp [hb] at hparse
    | some has_ecdsa =>
      simp only [select_chain_block tbl conf ctx _ has_ecdsa hb, hnone]
  · exact select_of_not_consulted tbl conf ctx hc

/-- C16 amended, at a ClientHello whose list holds the RSA-SHA512 pair only,
on the bundle with EcdsaSha256 and RsaSha256: no rule is satisfied, and the
outcome is RsaSha256 by the server-name extension, with the
signature-algorithms extension and without it. -/
theorem no_rule_same_as_removed_witness :
    SigAlgsWellFormed [0, 2, 6, 1] [6, 1]
    ∧ select_certificate_cb exampleCiphers bundleScenarioC
        { cipher_suites := [0xC0, 0x2B],
          extensions := [(TLSEXT_TYPE_signature_algorithms, [0, 2, 6, 1]),
            (TLSEXT_TYPE_server_name, [])] }
        = cb_result.selected .RsaSha256
    ∧ select_certificate_cb exampleCiphers bundleScenarioC
        { cipher_suites := [0xC0, 0x2B],
          extensions := [(TLSEXT_TYPE_signature_algorithms, [0, 2, 6, 1]),
            (TLSEXT_TYPE_server_name, [])] }
      = select_certificate_cb exampleCiphers bundleScenarioC
        (removeSigAlgs
          { cipher_suites := [0xC0, 0x2B],
            extensions := [(TLSEXT_TYPE_signature_algorithms, [0, 2, 6, 1]),
              (TLSEXT_TYPE_server_name, [])] }) :=
  have hwf : SigAlgsWellFormed [0, 2, 6, 1] [6, 1] :=
    ⟨0, 2, rfl, by decide, by decide, by decide⟩
  ⟨hwf, by decide,
    no_rule_same_as_removed exampleCiphers bundleScenarioC
      { cipher_suites := [0xC0, 0x2B],
        extensions := [(TLSEXT_TYPE_signature_algorithms, [0, 2, 6, 1]),
          (TLSEXT_TYPE_server_name, [])] }
      [0, 2, 6, 1] [6, 1] (by decide) hwf (by decide) (by decide)⟩

/-- C18: whenever the callback installs the context of a slot, on the
priority rules or on the fallback, that slot is populated in the bundle
(its `ctx` is not `NULL`). -/
theorem select_installs_populated (tbl : Nat → Option SSL_CIPHER) (conf : srv_conf_t)
    (ctx : ssl_early_callback_ctx) (s : Slot)
    (h : (select_certificate_cb tbl conf ctx).installed = some s) :
    conf.populated s = true ∧ (conf.slot s).ctx ≠ none := by
  have key : conf.populated s = true := by
    rcases select_cases tbl conf ctx with hp | hf | ⟨ext, list, t, -, -, -, hrule, -, hsel⟩
    · rw [hp] at h; simp [cb_result.parseError] at h
    · rw [hf] at h; exact (fallbackOutcome_installed conf ctx s h).1
    · rw [hsel] at h
      simp only [cb_result.selected, Option.some.injEq] at h
      subst h
      exact (firstSatisfiedRule_some conf _ _ t hrule).1
  refine ⟨key, ?_⟩
  unfold srv_conf_t.populated at key
  intro hn
  rw [hn] at key
  simp at key

/-- C18, at the bundle with RsaLegacy and RsaSha256 and a ClientHello with a
server-name extension: RsaSha256 is installed, and it is populated. -/
theorem select_installs_populated_witness :
    (select_certificate_cb exampleCiphers bundleLegacySha256 helloServerName).installed
        = some .RsaSha256
    ∧ bundleLegacySha256.populated .RsaSha256 = true :=
  ⟨by decide,
    (select_installs_populated exampleCiphers bundleLegacySha256 helloServerName .RsaSha256
      (by decide)).1⟩

/-- C19: if the callback installs a slot other than RsaLegacy and RsaSha256,
the client's well-formed signature-algorithms list holds the slot's (hash,
signature) pair; if the slot is an ECDSA one (EcdsaSha256, EcdsaSha384,
EcdsaSha512), moreover the bundle's ECDSA cipher set is not empty and the
client's cipher-suite list holds a suite that is ECDSA-keyed and in that
set. -/
theorem selected_slot_is_supported (tbl : Nat → Option SSL_CIPHER) (conf : srv_conf_t)
    (ctx : ssl_early_callback_ctx) (s : Slot) (hash sign : Nat)
    (h : (select_certificate_cb tbl conf ctx).installed = some s)
    (hpair : s.pair = some (hash, sign))
    (h256 : s ≠ .RsaSha256) :
    (∃ ext list,
        SSL_early_callback_ctx_extension_get ctx TLSEXT_TYPE_signature_algorithms = some ext
        ∧ SigAlgsWellFormed ext list
        ∧ hasPair list hash sign = true)
    ∧ (sign = TLSEXT_signature_ecdsa →
        conf.ecdsa_ciphers ≠ []
        ∧ ∃ v ∈ offered_suites ctx.cipher_suites,
            suiteCompatible tbl conf.ecdsa_ciphers v = true) := by
  rcases select_cases tbl conf ctx with hp | hf | ⟨ext, list, t, -, hext, hwf, hrule, -, hsel⟩
  · rw [hp] at h; simp [cb_result.parseError] at h
  · rw [hf] at h
    rcases (fallbackOutcome_installed conf ctx s h).2 with rfl | rfl
    · exact absurd rfl h256
    · simp [Slot.pair] at hpair
  · rw [hsel] at h
    simp only [cb_result.selected, Option.some.injEq] at h
    subst h
    have hcipher : hasEcdsaCipher tbl conf ctx = true →
        conf.ecdsa_ciphers ≠ []
        ∧ ∃ v ∈ offered_suites ctx.cipher_suites,
            suiteCompatible tbl conf.ecdsa_ciphers v = true := by
      intro hE
      refine ⟨fun hnil => ?_, ?_⟩
      · rw [hasEcdsaCipher_of_nil tbl conf ctx hnil] at hE
        simp at hE
      · unfold hasEcdsaCipher at hE
        rw [List.any_eq_true] at hE
        exact hE
    have hrule2 := (firstSatisfiedRule_some conf _ _ t hrule).2
    rcases hrule2 with ⟨rfl, hE, hfl⟩ | ⟨rfl, hE, hfl⟩ | ⟨rfl, hE, hfl⟩ | ⟨rfl, hfl⟩
      | ⟨rfl, hfl⟩ | ⟨rfl, hfl⟩
    all_goals
      simp only [Slot.pair, Option.some.injEq, Prod.mk.injEq] at hpair
      obtain ⟨rfl, rfl⟩ := hpair
    · exact ⟨⟨ext, list, hext, hwf, hfl⟩, fun _ => hcipher hE⟩
    · exact ⟨⟨ext, list, hext, hwf, hfl⟩, fun _ => hcipher hE⟩
    · exact ⟨⟨ext, list, hext, hwf, hfl⟩, fun _ => hcipher hE⟩
    · exact ⟨⟨ext, list, hext, hwf, hfl⟩, fun hs => by simp [TLSEXT_signature_rsa,
        TLSEXT_signature_ecdsa] at hs⟩
    · exact ⟨⟨ext, list, hext, hwf, hfl⟩, fun hs => by simp [TLSEXT_signature_rsa,
        TLSEXT_signature_ecdsa] at hs⟩
    · exact absurd rfl h256

/-- C19, at the bundle with every slot populated and the ClientHello with
the six pairs, which is served from EcdsaSha512. -/
theorem selected_slot_is_supported_witness :
    (select_certificate_cb exampleCiphers bundleAll helloAllSix).installed
        = some .EcdsaSha512
    ∧ hasPair sixPairs TLSEXT_hash_sha512 TLSEXT_signature_ecdsa = true
    ∧ bundleAll.ecdsa_ciphers ≠ [] :=
  ⟨by decide, by decide,
    ((selected_slot_is_supported exampleCiphers bundleAll helloAllSix .EcdsaSha512
      TLSEXT_hash_sha512 TLSEXT_signature_ecdsa (by decide) rfl (by decide)).2 rfl).1⟩

/-- C12: for N+1 certificates with signature algorithms `nid0 :: nids` (the
host's and those of the entries 1..N, all of which load) and a
configuration without populated slots, the classification pass of
`merge_srv_conf` succeeds exactly when every algorithm is one of the eight
table entries and no two classify to the same slot; then the populated
slots are the slots of the certificates and there are exactly N+1 of them.
When the pass fails, `merge_srv_conf` returns `NGX_CONF_ERROR`. -/
theorem classification_pass_iff (host : merge_host) (g : Int) (prev conf conf0 : srv_conf_t)
    (ssl : ngx_http_ssl_srv_conf_t) (certs keys : List String) (nid0 : Int)
    (nids : List Int)
    (hfresh : ∀ s, conf.populated s = false)
    (hc : ngx_conf_merge_ptr_value conf.certificate prev.certificate = some certs)
    (hk : ngx_conf_merge_ptr_value conf.certificate_key prev.certificate_key = some keys)
    (hconf0 : conf0 = { conf with certificate := some certs, certificate_key := some keys })
    (hssl : host.ssl = some ssl)
    (hhost : certificateSignatureAlgorithm ssl.ssl = some nid0)
    (hclen : certs.length = nids.length + 1) (hklen : keys.length = nids.length + 1)
    (hload : ∀ j nid, nids.get? j = some nid →
      ∃ cert key new_ssl, certs.get? (j + 1) = some cert ∧ keys.get? (j + 1) = some key
        ∧ host.load (j + 1) cert key = some new_ssl
        ∧ certificateSignatureAlgorithm new_ssl = some nid) :
    ((merge_classify host.load ssl certs keys conf0).1 = true ↔ Classifiable (nid0 :: nids))
    ∧ ((merge_classify host.load ssl certs keys conf0).1 = true →
        (∀ s, (merge_classify host.load ssl certs keys conf0).2.populated s = true ↔
          some s ∈ (nid0 :: nids).map slotOfNid)
        ∧ (merge_classify host.load ssl certs keys conf0).2.populatedSlots.length
            = nids.length + 1)
    ∧ (¬ Classifiable (nid0 :: nids) →
        (merge_srv_conf host g prev conf).1 = .NGX_CONF_ERROR) := by
  have hfresh0 : ∀ s, conf0.populated s = false := by
    intro s
    rw [hconf0, ← hfresh s]
    cases s <;> rfl
  have hspec := merge_classify_spec host.load ssl certs keys conf0 nid0 nids hfresh0 hhost
    hclen hklen hload
  refine ⟨hspec.1, fun hok => ⟨hspec.2 hok, ?_⟩, fun hnot => ?_⟩
  · obtain ⟨slots, hmap, hnodup, hlen⟩ := Classifiable.slots _ (hspec.1.mp hok)
    rw [populatedSlots_length _ slots hnodup, hlen, List.length_cons]
    intro s
    rw [hspec.2 hok s, ← hmap, List.mem_map]
    constructor
    · rintro ⟨t, ht, hts⟩
      simp only [Option.some.injEq] at hts
      subst hts; exact ht
    · intro hs
      exact ⟨s, hs, rfl⟩
  · have hfalse : (merge_classify host.load ssl certs keys conf0).1 = false := by
      rw [← Bool.not_eq_true, hspec.1]; exact hnot
    rw [merge_srv_conf_configured host g prev conf certs keys ssl hc hk (by omega) hssl
      (ctx_isSome_of_certificate ssl.ssl nid0 hhost), ← hconf0]
    rcases hcl : merge_classify host.load ssl certs keys conf0 with ⟨b, conf1⟩
    rw [hcl] at hfalse
    simp only [] at hfalse
    subst hfalse
    rfl

/-- C12, at the host whose certificate is SHA256-with-RSA and whose entries
1 and 2 load an ECDSA-with-SHA256 and an MD5-with-RSA certificate: the pass
succeeds and three slots are populated. -/
theorem classification_pass_iff_witness :
    Classifiable
      [NID_sha256WithRSAEncryption, NID_ecdsa_with_SHA256, NID_md5WithRSAEncryption]
    ∧ (merge_classify exampleHost.load
        { ssl := filledSlot 1 NID_sha256WithRSAEncryption,
          ciphers := [{ id := 0x0300C02C, is_ECDSA := true },
                      { id := 0x0300C02F, is_ECDSA := false },
                      { id := 0x0300C02B, is_ECDSA := true }] }
        ["a", "b", "c"] ["a", "b", "c"]
        (configured (some ["a", "b", "c"]) (some ["a", "b", "c"]))).1 = true :=
  have h := classification_pass_iff exampleHost (-1) create_srv_conf
    (configured (some ["a", "b", "c"]) (some ["a", "b", "c"]))
    (configured (some ["a", "b", "c"]) (some ["a", "b", "c"]))
    { ssl := filledSlot 1 NID_sha256WithRSAEncryption,
      ciphers := [{ id := 0x0300C02C, is_ECDSA := true },
                  { id := 0x0300C02F, is_ECDSA := false },
                  { id := 0x0300C02B, is_ECDSA := true }] }
    ["a", "b", "c"] ["a", "b", "c"] NID_sha256WithRSAEncryption
    [NID_ecdsa_with_SHA256, NID_md5WithRSAEncryption]
    (fun s => by cases s <;> rfl) rfl rfl rfl rfl rfl rfl rfl
    (fun j nid hj => by
      match j, hj with
      | 0, hj =>
        simp only [List.get?_cons_zero, Option.some.injEq] at hj
        subst hj
        exact ⟨"b", "b", filledSlot 2 NID_ecdsa_with_SHA256, rfl, rfl, rfl, rfl⟩
      | 1, hj =>
        simp only [List.get?_cons_succ, List.get?_cons_zero, Option.some.injEq] at hj
        subst hj
        exact ⟨"c", "c", filledSlot 3 NID_md5WithRSAEncryption, rfl, rfl, rfl, rfl⟩
      | j + 2, hj => simp at hj)
  ⟨by decide, h.1.mpr (by decide)⟩

/-- C13: with `certs` and `keys` the two directive arrays after the merge
with the parent, `merge_srv_conf` returns `NGX_CONF_ERROR` with every slot
and the cipher set untouched when only one of them is configured or their
numbers of elements differ; when neither is configured it returns
`NGX_CONF_OK`, again with nothing built and no callback registered; and
when both are configured with equal numbers, an `NGX_CONF_ERROR` comes from
a later step (no host context, a failed classification, a failed
allocation or registration), not from this check. -/
theorem merge_srv_conf_count_check (host : merge_host) (g : Int) (prev conf : srv_conf_t)
    (certs keys : Option (List String))
    (hc : ngx_conf_merge_ptr_value conf.certificate prev.certificate = certs)
    (hk : ngx_conf_merge_ptr_value conf.certificate_key prev.certificate_key = keys) :
    (countMismatch certs keys →
      merge_srv_conf host g prev conf =
        (.NGX_CONF_ERROR,
          ⟨{ conf with certificate := certs, certificate_key := keys }, g, false⟩))
    ∧ (certs = none → keys = none →
      merge_srv_conf host g prev conf =
        (.NGX_CONF_OK,
          ⟨{ conf with certificate := none, certificate_key := none }, g, false⟩))
    ∧ (∀ cs ks, certs = some cs → keys = some ks → cs.length = ks.length →
      (merge_srv_conf host g prev conf).1 = .NGX_CONF_ERROR →
      host.ssl = none
      ∨ ∃ ssl, host.ssl = some ssl
        ∧ (ssl.ssl.ctx = none
          ∨ (merge_classify host.load ssl cs ks
              { conf with certificate := some cs, certificate_key := some ks }).1 = false
          ∨ host.sk_new_ok = false
          ∨ (merge_push_loop host.sk_push_ok 0 ssl.ciphers []).1 = false
          ∨ (if g = -1 then host.ex_new_index else g) = -1
          ∨ host.set_ex_data_ok = false)) := by
  refine ⟨fun hm => merge_srv_conf_mismatch host g prev conf certs keys hc hk hm,
    fun h1 h2 => merge_srv_conf_unset host g prev conf (hc.trans h1) (hk.trans h2), ?_⟩
  intro cs ks h1 h2 hlen herr
  cases hssl : host.ssl with
  | none => left; rfl
  | some ssl =>
    right
    refine ⟨ssl, rfl, ?_⟩
    cases hctx : ssl.ssl.ctx with
    | none => left; rfl
    | some c =>
      right
      rw [merge_srv_conf_configured host g prev conf cs ks ssl (hc.trans h1) (hk.trans h2)
        hlen hssl (by rw [hctx]; rfl)] at herr
      rcases hcl : merge_classify host.load ssl cs ks
          { conf with certificate := some cs, certificate_key := some ks } with ⟨b, conf1⟩
      rw [hcl] at herr
      cases b with
      | false => left; rfl
      | true =>
        right
        simp only [] at herr
        cases hnew : host.sk_new_ok with
        | false => left; rfl
        | true =>
          right
          simp only [hnew, Bool.not_true, Bool.false_eq_true, if_false] at herr
          rcases hpl : merge_push_loop host.sk_push_ok 0 ssl.ciphers [] with ⟨b2, sk⟩
          rw [hpl] at herr
          cases b2 with
          | false => left; rfl
          | true =>
            right
            simp only [] at herr
            by_cases hg : (if g = -1 then host.ex_new_index else g) = -1
            · left; exact hg
            · right
              rw [if_neg hg] at herr
              cases hset : host.set_ex_data_ok with
              | false => rfl
              | true => simp [hset] at herr

/-- C13, at three certificates and two keys: the function fails on the
check and the configuration keeps its empty slots. -/
theorem merge_srv_conf_count_check_witness :
    countMismatch (some ["a", "b", "c"]) (some ["a", "b"])
    ∧ merge_srv_conf exampleHost (-1) create_srv_conf
        (configured (some ["a", "b", "c"]) (some ["a", "b"]))
      = (.NGX_CONF_ERROR, ⟨configured (some ["a", "b", "c"]) (some ["a", "b"]), -1, false⟩) :=
  have hm : countMismatch (some ["a", "b", "c"]) (some ["a", "b"]) :=
    Or.inr (Or.inr ⟨["a", "b", "c"], ["a", "b"], rfl, rfl, by decide⟩)
  ⟨hm,
    (merge_srv_conf_count_check exampleHost (-1) create_srv_conf
      (configured (some ["a", "b", "c"]) (some ["a", "b"]))
      (some ["a", "b", "c"]) (some ["a", "b"]) rfl rfl).1 hm⟩

/-- C17: when `merge_srv_conf` runs to its end, the ECDSA cipher set it
leaves is a rearrangement of the host's ECDSA-keyed suites (nothing added,
nothing dropped) in non-decreasing order of identifier under
`ssl_cipher_ptr_id_cmp`; so the binary search by identifier finds a cipher
exactly when an ECDSA-keyed suite with its identifier is in the host's
list, and it agrees with the linear search. -/
theorem ecdsa_ciphers_sorted_filter (host : merge_host) (g : Int) (prev conf : srv_conf_t)
    (ssl : ngx_http_ssl_srv_conf_t) (hssl : host.ssl = some ssl)
    (hdone : (merge_srv_conf host g prev conf).2.callback_set = true) :
    ((merge_srv_conf host g prev conf).2.conf.ecdsa_ciphers).Perm
        (ssl.ciphers.filter (fun c => c.is_ECDSA))
    ∧ ((merge_srv_conf host g prev conf).2.conf.ecdsa_ciphers).Pairwise
        (fun a b => ssl_cipher_ptr_id_cmp a b ≤ 0 ∧ a.id ≤ b.id)
    ∧ (∀ p : SSL_CIPHER,
        sk_bsearch p ((merge_srv_conf host g prev conf).2.conf.ecdsa_ciphers).length
            (merge_srv_conf host g prev conf).2.conf.ecdsa_ciphers = true
          ↔ ∃ c ∈ ssl.ciphers, c.is_ECDSA = true ∧ c.id = p.id)
    ∧ (∀ p : SSL_CIPHER,
        sk_bsearch p ((merge_srv_conf host g prev conf).2.conf.ecdsa_ciphers).length
            (merge_srv_conf host g prev conf).2.conf.ecdsa_ciphers
          = sk_SSL_CIPHER_find (merge_srv_conf host g prev conf).2.conf.ecdsa_ciphers p) := by
  obtain ⟨certs, keys, ssl2, conf1, sk, -, -, -, hssl2, -, hpush, heq⟩ :=
    merge_srv_conf_done host g prev conf hdone
  have hs : ssl2 = ssl := by
    rw [hssl] at hssl2
    exact (Option.some.inj hssl2).symm
  subst hs
  have hsk : sk = ssl2.ciphers.filter (fun c => c.is_ECDSA) := by
    simpa using merge_push_loop_ok host.sk_push_ok ssl2.ciphers 0 [] sk hpush
  have hset : (merge_srv_conf host g prev conf).2.conf.ecdsa_ciphers
      = sk_SSL_CIPHER_sort (ssl2.ciphers.filter (fun c => c.is_ECDSA)) := by
    rw [heq, hsk]
  rw [hset]
  have hperm := sk_SSL_CIPHER_sort_perm (ssl2.ciphers.filter (fun c => c.is_ECDSA))
  have hsorted := sk_SSL_CIPHER_sort_sorted (ssl2.ciphers.filter (fun c => c.is_ECDSA))
  have hmem : ∀ p : SSL_CIPHER,
      (∃ c ∈ sk_SSL_CIPHER_sort (ssl2.ciphers.filter (fun c => c.is_ECDSA)), c.id = p.id)
        ↔ ∃ c ∈ ssl2.ciphers, c.is_ECDSA = true ∧ c.id = p.id := by
    intro p
    constructor
    · rintro ⟨c, hc, hid⟩
      have := List.mem_filter.mp (hperm.mem_iff.mp hc)
      exact ⟨c, this.1, this.2, hid⟩
    · rintro ⟨c, hc, he, hid⟩
      exact ⟨c, hperm.mem_iff.mpr (List.mem_filter.mpr ⟨hc, he⟩), hid⟩
  refine ⟨hperm, ?_, ?_, ?_⟩
  · exact hsorted.imp (fun {a b} hab => ⟨(ssl_cipher_ptr_id_cmp_le a b).mpr hab, hab⟩)
  · intro p
    rw [sk_bsearch_iff p _ _ (Nat.le_refl _) hsorted, hmem p]
  · intro p
    rw [Bool.eq_iff_iff, sk_bsearch_iff p _ _ (Nat.le_refl _) hsorted,
      sk_SSL_CIPHER_find_iff]

/-- C17, at the host whose cipher list is 0xC02C, 0xC02F (RSA), 0xC02B: the
set is 0xC02B, 0xC02C. -/
theorem ecdsa_ciphers_sorted_filter_witness :
    (merge_srv_conf exampleHost (-1) create_srv_conf
        (configured (some ["a", "b", "c"]) (some ["a", "b", "c"]))).2.callback_set = true
    ∧ (merge_srv_conf exampleHost (-1) create_srv_conf
        (configured (some ["a", "b", "c"]) (some ["a", "b", "c"]))).2.conf.ecdsa_ciphers
      = [{ id := 0x0300C02B, is_ECDSA := true }, { id := 0x0300C02C, is_ECDSA := true }]
    ∧ sk_bsearch { id := 0x0300C02C, is_ECDSA := true }
        ((merge_srv_conf exampleHost (-1) create_srv_conf
          (configured (some ["a", "b", "c"]) (some ["a", "b", "c"]))).2.conf.ecdsa_ciphers).length
        (merge_srv_conf exampleHost (-1) create_srv_conf
          (configured (some ["a", "b", "c"]) (some ["a", "b", "c"]))).2.conf.ecdsa_ciphers
      = true :=
  have h := ecdsa_ciphers_sorted_filter exampleHost (-1) create_srv_conf
    (configured (some ["a", "b", "c"]) (some ["a", "b", "c"]))
    { ssl := filledSlot 1 NID_sha256WithRSAEncryption,
      ciphers := [{ id := 0x0300C02C, is_ECDSA := true },
                  { id := 0x0300C02F, is_ECDSA := false },
                  { id := 0x0300C02B, is_ECDSA := true }] }
    rfl (by decide)
  ⟨by decide, by decide,
    (h.2.2.1 { id := 0x0300C02C, is_ECDSA := true }).mpr
      ⟨{ id := 0x0300C02C, is_ECDSA := true }, by decide, rfl, rfl⟩⟩

end Multicert
